import Mathlib

/-!
Verification of the `cipa` package's Tabulated Experimental Data (TED)
import/export layer (`cipa/io/tedutils.py` and the data-model modules it
uses), as a shallow embedding.

Conventions of the embedding:
* Python `str` is modelled as `List Char` (named `Str` below), so that the
  string manipulations of the source (split, join, upper/lower, substring
  tests, `int()` parsing, `str()` printing) are ordinary list functions.
* Python `float` is modelled as `ℚ`; `int` as `ℤ`.
* A pandas/Python run-time error (IndexError on `iloc`, KeyError on missing
  columns or dictionary keys, ValueError from `int()`) is modelled by
  `Option`/`Except`: `none`/`.error` means the corresponding Python call
  raises.
* pandas `DataFrame`s built from lists of dicts are modelled as lists of
  structures; where the dynamic key set of the dicts matters (the
  `ResultsWide` sheet), rows are additionally rendered to ordered
  association lists mirroring Python's dict insertion order.
-/

/- Core marks the `Rat` arithmetic operations `@[irreducible]` (they have
native implementations); restore reducibility so that concrete instances
of the definitions below evaluate inside `decide`/`rfl` proofs. -/
set_option allowUnsafeReducibility true
attribute [local semireducible] Rat.mul Rat.add Rat.sub Rat.neg Rat.div
attribute [local semireducible] Rat.normalize Rat.inv

namespace Cipa

/-- Python strings, modelled as lists of characters. -/
abbrev Str := List Char

/-- Python `str.lower()` (ASCII case folding, as used by the source for
column/flag comparisons). -/
def lowerStr (s : Str) : Str := s.map Char.toLower

/-- Python `str.upper()` (ASCII case folding). -/
def upperStr (s : Str) : Str := s.map Char.toUpper

/-- Python `s.split(sep)` for a one-character separator `sep`:
always returns a non-empty list of (possibly empty) chunks. -/
def splitOnChar (sep : Char) : Str → List Str
  | [] => [[]]
  | c :: cs =>
    match splitOnChar sep cs with
    | [] => [[]]
    | t :: ts => if c = sep then [] :: t :: ts else (c :: t) :: ts

/-- Python `sep.join(parts)` for a one-character separator. -/
def joinSep (sep : Char) : List Str → Str
  | [] => []
  | [s] => s
  | s :: rest => s ++ sep :: joinSep sep rest

/-- Python `str.replace(old, new)` for one-character `old` deleted
(`replace(x, '')`), as in `s.replace(" ", "")`. -/
def eraseAllChar (c : Char) (s : Str) : Str := s.filter (· ≠ c)

/-- Python slicing `s[:-n]` (all but the last `n` characters). -/
def dropLastN (n : ℕ) (s : Str) : Str := s.take (s.length - n)

/-- Python slicing `s[-n:]` (the last `n` characters). -/
def takeLastN (n : ℕ) (s : Str) : Str := s.drop (s.length - n)

/-- Whitespace as stripped by Python `int()` around a numeral. -/
def isPySpace (c : Char) : Bool := c = ' ' ∨ c = '\t' ∨ c = '\n' ∨ c = '\r'

/-- Strip leading and trailing whitespace (Python `str.strip()`, also
performed implicitly by `int()`). -/
def stripStr (s : Str) : Str :=
  ((s.dropWhile isPySpace).reverse.dropWhile isPySpace).reverse

/-- Numeric value of a decimal digit character. -/
def digitVal (c : Char) : ℕ := c.toNat - 48

/-- Value of a non-empty all-digit string. -/
def digitsVal (s : Str) : ℕ := s.foldl (fun v c => v * 10 + digitVal c) 0

/-- Python `int(s)`: strips whitespace, accepts an optional sign followed by
one or more decimal digits; anything else raises `ValueError` (`none`). -/
def parsePyInt (s : Str) : Option ℤ :=
  let t := stripStr s
  match t with
  | '+' :: ds =>
    if ds ≠ [] ∧ ds.all Char.isDigit then some (digitsVal ds : ℤ) else none
  | '-' :: ds =>
    if ds ≠ [] ∧ ds.all Char.isDigit then some (-(digitsVal ds : ℤ)) else none
  | ds =>
    if ds ≠ [] ∧ ds.all Char.isDigit then some (digitsVal ds : ℤ) else none

/-- Decimal digit characters of a natural number: fuel-based helper so that
the definition is structural (and kernel-reducible). -/
def ndAux : ℕ → ℕ → Str → Str
  | 0, _, acc => acc
  | fuel + 1, n, acc =>
    let d := Char.ofNat (48 + n % 10)
    if n < 10 then d :: acc else ndAux fuel (n / 10) (d :: acc)

/-- Python `str(n)` for a natural number. -/
def natChars (n : ℕ) : Str := ndAux (n + 1) n []

/-- Python `str(n)` for an integer. -/
def intChars (n : ℤ) : Str :=
  if n < 0 then '-' :: natChars (-n).toNat else natChars n.toNat

/-- Stable insertion of `x` into `l` before the first element `y` with
`le x y`. -/
def insertLe {α : Type} (le : α → α → Bool) (x : α) : List α → List α
  | [] => [x]
  | y :: ys => if le x y then x :: y :: ys else y :: insertLe le x ys

/-- Stable insertion sort, modelling pandas `sort_values` (which orders rows
by the given key; on the duplicate-free keys considered in the theorems
below every correct sort produces the same list). -/
def sortBy {α : Type} (le : α → α → Bool) (l : List α) : List α :=
  l.foldr (insertLe le) []

/-- Keep-first de-duplication (helper carrying the already-seen elements). -/
def dedupFAux {α : Type} [DecidableEq α] (seen : List α) : List α → List α
  | [] => []
  | x :: xs =>
    if x ∈ seen then dedupFAux seen xs else x :: dedupFAux (x :: seen) xs

/-- Keep-first de-duplication, modelling pandas `drop_duplicates`. -/
def dedupF {α : Type} [DecidableEq α] (l : List α) : List α := dedupFAux [] l

/-!
### `expand_numbers_list` (tedutils.py lines 110-129)

The source splits the input on `;`, splits each token on `-`, and
* expands `[a, b]` to `a..b` when `int(a) <= int(b)`,
* keeps one-part tokens verbatim,
* logs and skips any other token (`a > b`, or three or more parts),
* returns `[]` for `None` or an all-space string.

`int()` is applied to both parts of every two-part token *before* the
comparison; a part that is not a valid integer literal raises an uncaught
`ValueError`, modelled by `none`.
-/

/-- Processing of one `;`-token (already split on `-`) appended to the
accumulator, mirroring the body of the `for item in row` loop. -/
def expandItem (item : List Str) : Option (List Str) :=
  match item with
  | [a, b] =>
    match parsePyInt a, parsePyInt b with
    | some va, some vb =>
      if va ≤ vb then
        some (((List.range (vb - va).toNat.succ).map
          (fun k => intChars (va + k))))
      else some []      -- logged (`out of range`) and skipped
    | _, _ => none      -- ValueError from int()
  | [a] => some [a]
  | _ => some []        -- logged and skipped

/-- `expand_numbers_list` (tedutils.py lines 110-129).  The argument `none`
models Python `None`. -/
def expand_numbers_list (numbers_string : Option Str) : Option (List Str) :=
  match numbers_string with
  | none => some []
  | some s =>
    if eraseAllChar ' ' s ≠ [] then
      let row := (splitOnChar ';' s).map (splitOnChar '-')
      row.foldlM (fun acc item => (expandItem item).map (acc ++ ·)) []
    else
      some []

/-!
### Data model (cipa/core.py, protocols.py, results.py, cursors.py,
liquids.py, devices.py, study.py, waveforms.py, experiments.py, trial.py)

Only construction-time attributes are modelled; the classes have no
behaviour beyond construction and copying.  Optional attributes that the
source initialises to `None` are `Option`s; accessing an attribute of
`None` (an `AttributeError` at run time) propagates as `none`.
-/

/-- `cipa.core.Id` (two-part identifier). -/
structure Id where
  root : Str
  extension : Str
deriving DecidableEq

/-- `Protocol_Type` (protocols.py). -/
inductive Protocol_Type where
  | CIPA_PROTOCOL_VOLTAGE
  | CIPA_PROTOCOL_CURRENT
  | CIPA_PROTOCOL_LIQUID
  | CIPA_PROTOCOL_TEMPERATURE
  | CIPA_PROTOCOL_UNKNOWN
deriving DecidableEq

/-- `Concentration_Type` (protocols.py). -/
inductive Concentration_Type where
  | CIPA_PROTOCOL_LIQUID_CONCENTRATION_NOMINAL
  | CIPA_PROTOCOL_LIQUID_CONCENTRATION_CALCULATED
  | CIPA_PROTOCOL_LIQUID_CONCENTRATION_MEASURED
  | CIPA_PROTOCOL_LIQUID_CONCENTRATION_SATELLITE
  | CIPA_PROTOCOL_LIQUID_CONCENTRATION_UNKNOWN
deriving DecidableEq

/-- Python `Enum.name` for `Concentration_Type`. -/
def Concentration_Type.name : Concentration_Type → Str
  | .CIPA_PROTOCOL_LIQUID_CONCENTRATION_NOMINAL =>
    "CIPA_PROTOCOL_LIQUID_CONCENTRATION_NOMINAL".data
  | .CIPA_PROTOCOL_LIQUID_CONCENTRATION_CALCULATED =>
    "CIPA_PROTOCOL_LIQUID_CONCENTRATION_CALCULATED".data
  | .CIPA_PROTOCOL_LIQUID_CONCENTRATION_MEASURED =>
    "CIPA_PROTOCOL_LIQUID_CONCENTRATION_MEASURED".data
  | .CIPA_PROTOCOL_LIQUID_CONCENTRATION_SATELLITE =>
    "CIPA_PROTOCOL_LIQUID_CONCENTRATION_SATELLITE".data
  | .CIPA_PROTOCOL_LIQUID_CONCENTRATION_UNKNOWN =>
    "CIPA_PROTOCOL_LIQUID_CONCENTRATION_UNKNOWN".data

/-- `Cursor_Type` (cursors.py). -/
inductive Cursor_Type where
  | AVERAGE
  | MAXIMUM
  | MINIMUM
  | CUSTOM
deriving DecidableEq

/-- Python `Enum.name` for `Cursor_Type`. -/
def Cursor_Type.name : Cursor_Type → Str
  | .AVERAGE => "AVERAGE".data
  | .MAXIMUM => "MAXIMUM".data
  | .MINIMUM => "MINIMUM".data
  | .CUSTOM => "CUSTOM".data

/-- `LeakMethod_Type` (results.py). -/
inductive LeakMethod_Type where
  | CIPA_LEAK_METHOD_NONE
  | CIPA_LEAK_METHOD_SMALL_PULSE
  | CIPA_LEAK_METHOD_FAST_LEAK
  | CIPA_LEAK_METHOD_SWEEP
  | CIPA_LEAK_METHOD_ZERO_CURSOR
  | CIPA_LEAK_METHOD_UNKNOWN
deriving DecidableEq

/-- Python `Enum.name` for `LeakMethod_Type`. -/
def LeakMethod_Type.name : LeakMethod_Type → Str
  | .CIPA_LEAK_METHOD_NONE => "CIPA_LEAK_METHOD_NONE".data
  | .CIPA_LEAK_METHOD_SMALL_PULSE => "CIPA_LEAK_METHOD_SMALL_PULSE".data
  | .CIPA_LEAK_METHOD_FAST_LEAK => "CIPA_LEAK_METHOD_FAST_LEAK".data
  | .CIPA_LEAK_METHOD_SWEEP => "CIPA_LEAK_METHOD_SWEEP".data
  | .CIPA_LEAK_METHOD_ZERO_CURSOR => "CIPA_LEAK_METHOD_ZERO_CURSOR".data
  | .CIPA_LEAK_METHOD_UNKNOWN => "CIPA_LEAK_METHOD_UNKNOWN".data

/-- `Result_Type` (results.py); only the constructors exercised by the TED
layer are listed with their full enum names. -/
inductive Result_Type where
  | CIPA_RESULT_TYPE_VOLTAGE
  | CIPA_RESULT_TYPE_CURRENT
  | CIPA_RESULT_TYPE_TEMPERATURE
  | CIPA_RESULT_TYPE_SERIES_RESISTANCE
  | CIPA_RESULT_TYPE_UNKNOWN
deriving DecidableEq

/-- Python `Enum.name` for `Result_Type`. -/
def Result_Type.name : Result_Type → Str
  | .CIPA_RESULT_TYPE_VOLTAGE => "CIPA_RESULT_TYPE_VOLTAGE".data
  | .CIPA_RESULT_TYPE_CURRENT => "CIPA_RESULT_TYPE_CURRENT".data
  | .CIPA_RESULT_TYPE_TEMPERATURE => "CIPA_RESULT_TYPE_TEMPERATURE".data
  | .CIPA_RESULT_TYPE_SERIES_RESISTANCE =>
    "CIPA_RESULT_TYPE_SERIES_RESISTANCE".data
  | .CIPA_RESULT_TYPE_UNKNOWN => "CIPA_RESULT_TYPE_UNKNOWN".data

/-- `cipa.waveforms.Waveform`.  The `head`/`increment`/`origin`/`scale`
dictionaries are flattened to value/unit pairs; file-offset bookkeeping
fields that the TED layer never reads are omitted. -/
structure Waveform where
  head : Option ℚ
  head_u : Str
  increment : Option ℚ
  increment_u : Str
  origin : ℚ
  origin_u : Str
  scale : ℚ
  scale_u : Str
  digits : List (Option ℚ)
  cipaType : Str
  sequenceType : Str
  displayName : Str
  tracenum : ℤ
  signalnam : Str
  edfilename : Str
deriving DecidableEq

/-- `cipa.cursors.Cursor` as used for cursor *definitions* (name, window,
unit, type).  The per-trace evaluated `CursorResult` lives on the Result
side, where the TED layer reads only `(name, result.value)` pairs. -/
structure Cursor where
  name : Str
  start : ℚ
  stop : ℚ
  time_u : Str
  ctype : Cursor_Type
deriving DecidableEq

/-- `cipa.liquids.Liquid` (id and name; batch/description unused here). -/
structure Liquid where
  id : Id
  name : Str
deriving DecidableEq

/-- `cipa.protocols.Protocol` with the `LiquidProtocol` extension fields
flattened in (the source discriminates by the `type` tag; every
`CIPA_PROTOCOL_LIQUID` protocol is constructed through `LiquidProtocol`,
which sets `conc`, `conc_u`, `conc_type` and the two flags). -/
structure Protocol where
  id : Id
  type : Protocol_Type
  name : Str
  waveform : Option Waveform
  liquid : Option Liquid
  conc : ℚ
  conc_u : Str
  conc_type : Concentration_Type
  isControl : Bool
  isSelectiveBlocker : Bool
deriving DecidableEq

/-- `cipa.results.ProtocolExecution`. -/
structure ProtocolExecution where
  protocol : Protocol
  time : ℚ
  time_u : Str
deriving DecidableEq

/-- `cipa.properties.Property` (the type tag is not read by the export
path modelled here). -/
structure Property where
  code : Str
  displayName : Str
  value : Str
  unit : Str
deriving DecidableEq

/-- `cipa.results.Cell`. -/
structure Cell where
  id : Id
  properties : List Property
deriving DecidableEq

/-- `cipa.results.Result`: one recorded trace.  `cursors` keeps the
`(name, result.value)` view of the evaluated `Cursor` objects, which is
everything the TED layer reads from them; a value of `none` is a `NaN`
cursor result. -/
structure Result where
  traceNumber : ℤ
  valid : Bool
  type : Result_Type
  elapsedTime : ℚ
  elapsedTime_u : Str
  waveform : Waveform
  cursors : List (Str × Option ℚ)
deriving DecidableEq

/-- `cipa.liquids.LiquidJunctionPotential` (value and unit; the reported
voltage tag is not read back by the TED layer).  `value = none` is a
`NaN` value. -/
structure LiquidJunctionPotential where
  value : Option ℚ
  unit : Str
deriving DecidableEq

/-- `cipa.results.Results` (one analysis pass; plate/well/patch fields that
the TED layer never touches are omitted). -/
structure Results where
  cell : Cell
  leakMethod : LeakMethod_Type
  ljp : Option LiquidJunctionPotential
  cursors : Option (List Cursor)
  results : List Result
deriving DecidableEq

/-- `cipa.experiments.Experiment`. -/
structure Experiment where
  id : Id
  startTime : Str
  protocols : List ProtocolExecution
  resultsSet : List Results
deriving DecidableEq

/-- `cipa.devices.Device`. -/
structure Device where
  id : Id
  code : Str
  manufacturerModelName : Str
  deviceSoftwareName : Str
deriving DecidableEq

/-- `cipa.study.StudyReport`. -/
structure StudyReport where
  title : Str
  version : Str
  date : Str
  text : Str
deriving DecidableEq

/-- `cipa.study.Study`. -/
structure Study where
  studyId : Str
  report : StudyReport
deriving DecidableEq

/-- `cipa.trial.Trial` (format version and description do not influence the
tables). -/
structure Trial where
  study : Study
  devices : List Device
  ljp : Option LiquidJunctionPotential
  liquids : List Liquid
  protocols : List Protocol
  experiments : List Experiment
deriving DecidableEq

/-- Composite EXPID/CELLID key: `root` joined with `extension` by `_` when
the extension is non-empty (tedutils.py lines 163-166 and 181-184). -/
def compositeId (id : Id) : Str :=
  if id.extension = [] then id.root else id.root ++ '_' :: id.extension

/-!
### Row types of the TED tables (tedutils.py lines 38-107)
-/

/-- `TED_CellProperty`. -/
structure TED_CellProperty where
  EXPID : Str
  CELLID : Str
  PARAMCD : Str
  PARAM : Str
  VALUE : Str
  UNIT : Str
deriving DecidableEq

/-- `TED_CursorDefinition`. -/
structure TED_CursorDefinition where
  CURSOR : Str
  STIME : ℚ
  STIMEU : Str
  ETIME : ℚ
  ETIMEU : Str
  CURSORT : Str
deriving DecidableEq

/-- `TED_LiquidAddition`. -/
structure TED_LiquidAddition where
  EXPID : Str
  CELLID : Str
  STIME : Str
  LJP : Option ℚ
  LJPU : Str
  LIQUID : Str
  CONC : ℚ
  CONCU : Str
  CONCT : Str
  FIRST : ℤ
  LAST : ℤ
  CTLFL : Str
  SBFL : Str
  ANL : Str
  SRCXFN : Str
  NOTES : Str
deriving DecidableEq

/-- `TED_ResultWide`, together with the keys the export loop adds to the
row dict afterwards: the per-cursor columns (`rww[rc.name] = ...`, line
235) and the back-filled `CTLFL`/`SBFL` keys (lines 291-292), which are
*absent* (`none`) on rows no liquid-addition range back-fills.  `CONC` is
`none` while it still holds its initial `NaN`. -/
structure TED_ResultWide where
  EXPID : Str
  CELLID : Str
  RESTYPE : Str
  LEAKMTH : Str
  ELTIME : ℚ
  ELTIMEU : Str
  TRACENUM : ℤ
  ANLFL : Str
  SRCXFN : Str
  LIQUID : Str
  CONC : Option ℚ
  CONCU : Str
  CONCT : Str
  cursorValues : List (Str × Option ℚ)
  CTLFL : Option Str
  SBFL : Option Str
deriving DecidableEq

/-- One entry of the `exec_ps` list (tedutils.py lines 203-212). -/
structure ExecP where
  LIQUID : Str
  CONC : ℚ
  CONCU : Str
  CONCT : Str
  TIME : ℚ
  TIMEU : Str
  CTLFL : Str
  SBFL : Str
deriving DecidableEq

/-- Lexicographic `<` on strings (pandas sorts object columns by the usual
string order). -/
def strLt : Str → Str → Bool
  | [], [] => false
  | [], _ :: _ => true
  | _ :: _, [] => false
  | a :: as, b :: bs =>
    if a.val < b.val then true
    else if b.val < a.val then false
    else strLt as bs

/-- Lexicographic `≤` on strings. -/
def strLe (a b : Str) : Bool := !strLt b a

/-- Sort key of `tmp`/`rw_df`: `["EXPID", "CELLID", "ELTIME", "TRACENUM"]`
(tedutils.py lines 249-250 and 310-311). -/
def rwKeyLe (a b : TED_ResultWide) : Bool :=
  if a.EXPID ≠ b.EXPID then strLt a.EXPID b.EXPID
  else if a.CELLID ≠ b.CELLID then strLt a.CELLID b.CELLID
  else if a.ELTIME ≠ b.ELTIME then a.ELTIME < b.ELTIME
  else a.TRACENUM ≤ b.TRACENUM

/-- Sort key of `la_df`: `["STIME", "EXPID", "CELLID", "FIRST", "LAST"]`
(tedutils.py lines 305-306). -/
def laKeyLe (a b : TED_LiquidAddition) : Bool :=
  if a.STIME ≠ b.STIME then strLt a.STIME b.STIME
  else if a.EXPID ≠ b.EXPID then strLt a.EXPID b.EXPID
  else if a.CELLID ≠ b.CELLID then strLt a.CELLID b.CELLID
  else if a.FIRST ≠ b.FIRST then a.FIRST < b.FIRST
  else a.LAST ≤ b.LAST

/-- Sort key of `exp_las`: `["TIME"]` (tedutils.py line 213). -/
def execPLe (a b : ExecP) : Bool := a.TIME ≤ b.TIME

/-!
### The tabular projection builder
(`cells_cursors_liquids_results_dataframes`, tedutils.py lines 144-320)
-/

/-- The `la` template after the header fields are filled in for one
experiment (lines 162-191): EXPID, CELLID, STIME, LJP, LJPU. -/
structure LABase where
  EXPID : Str
  CELLID : Str
  STIME : Str
  LJP : Option ℚ
  LJPU : Str
deriving DecidableEq

/-- Copy of the `la` object taken at the end of one iteration of the
`for exp_la in exp_las` loop (lines 252-265): header fields from the
template, payload from the current execution, `FIRST` as computed,
`LAST` still holding its initial `0`. -/
def laOfExec (base : LABase) (e : ExecP) (first : ℤ) : TED_LiquidAddition :=
  { EXPID := base.EXPID, CELLID := base.CELLID, STIME := base.STIME,
    LJP := base.LJP, LJPU := base.LJPU,
    LIQUID := e.LIQUID, CONC := e.CONC, CONCU := e.CONCU, CONCT := e.CONCT,
    FIRST := first, LAST := 0, CTLFL := e.CTLFL, SBFL := e.SBFL,
    ANL := [], SRCXFN := [], NOTES := [] }

/-- `tmp_c = tmp[tmp["ELTIME"] >= t]; tmp_c.iloc[0]` (lines 260-261):
first row of `tmp` with elapsed time at or after `t`; `none` when the
selection is empty (`iloc[0]` raises). -/
def rowAtOrAfter (tmp : List TED_ResultWide) (t : ℚ) :
    Option TED_ResultWide :=
  (tmp.filter (fun r => t ≤ r.ELTIME)).head?

/-- `tmp_c = tmp[tmp["ELTIME"] < t]; tmp_c.iloc[-1]` (lines 263-264):
last row of `tmp` with elapsed time strictly before `t`; `none` when the
selection is empty (`iloc[-1]` raises). -/
def rowBefore (tmp : List TED_ResultWide) (t : ℚ) : Option TED_ResultWide :=
  (tmp.filter (fun r => r.ELTIME < t)).getLast?

/-- The `for exp_la in exp_las` loop (tedutils.py lines 252-265), with the
accumulator `exp_liq_adds` kept most-recent-first so that the mutation
`exp_liq_adds[-1].LAST = ...` is an update of the accumulator's head.
`tmp_c.iloc[0]` / `tmp_c.iloc[-1]` on an empty selection raise
(`none`). -/
def rangesLoop (tmp : List TED_ResultWide) (base : LABase) :
    List ExecP → List TED_LiquidAddition → Option (List TED_LiquidAddition)
  | [], acc => some acc
  | e :: rest, acc =>
    match rowAtOrAfter tmp e.TIME with
    | none => none
    | some rf =>
      match acc with
      | [] => rangesLoop tmp base rest [laOfExec base e rf.TRACENUM]
      | prev :: acc' =>
        match rowBefore tmp e.TIME with
        | none => none
        | some rl =>
          rangesLoop tmp base rest
            (laOfExec base e rf.TRACENUM :: { prev with LAST := rl.TRACENUM }
              :: acc')

/-- Lines 252-267: run the loop on the time-sorted, de-duplicated
executions and then populate the last addition's `LAST` with the last
trace number recorded (`tmp.iloc[-1]["TRACENUM"]`). -/
def expLiqAdds (tmp : List TED_ResultWide) (base : LABase)
    (exp_las : List ExecP) : Option (List TED_LiquidAddition) :=
  match rangesLoop tmp base exp_las [] with
  | none => none
  | some accRev =>
    match accRev, tmp.getLast? with
    | prev :: acc', some rl =>
      some (({ prev with LAST := rl.TRACENUM } :: acc').reverse)
    | _, _ => none

/-- `ANL` of one addition (lines 270-275): semicolon-joined de-duplicated
trace numbers of the valid rows inside `[FIRST, LAST]`. -/
def anlOf (tmp : List TED_ResultWide) (la : TED_LiquidAddition) : Str :=
  joinSep ';'
    ((dedupF ((tmp.filter (fun r =>
        r.ANLFL = "Y".data ∧ la.FIRST ≤ r.TRACENUM ∧ r.TRACENUM ≤ la.LAST)
      ).map (·.TRACENUM))).map intChars)

/-- `SRCXFN` of one addition (lines 276-280): semicolon-joined
de-duplicated source filenames of the rows inside `[FIRST, LAST]`. -/
def srcxfnOf (tmp : List TED_ResultWide) (la : TED_LiquidAddition) : Str :=
  joinSep ';'
    (dedupF ((tmp.filter (fun r =>
        la.FIRST ≤ r.TRACENUM ∧ r.TRACENUM ≤ la.LAST)).map (·.SRCXFN)))

/-- Lines 269-280 for the addition rows. -/
def populateLiqAdds (tmp : List TED_ResultWide)
    (las : List TED_LiquidAddition) : List TED_LiquidAddition :=
  las.map (fun la => { la with ANL := anlOf tmp la, SRCXFN := srcxfnOf tmp la })

/-- Lines 281-292: back-fill the liquid information of each addition into
the wide rows whose trace number falls inside its range. -/
def backfill (rows : List TED_ResultWide)
    (las : List TED_LiquidAddition) : List TED_ResultWide :=
  las.foldl (fun rs la => rs.map (fun er =>
    if er.EXPID = la.EXPID ∧ er.CELLID = la.CELLID ∧
        la.FIRST ≤ er.TRACENUM ∧ er.TRACENUM ≤ la.LAST then
      { er with
        LIQUID := la.LIQUID
        CONC := some la.CONC
        CONCU := la.CONCU
        CONCT := la.CONCT
        CTLFL := some la.CTLFL
        SBFL := some la.SBFL }
    else er)) rows

/-- One wide row before back-filling (lines 221-236). -/
def rwOfResult (base : LABase) (rs : Results) (res : Result) :
    TED_ResultWide :=
  { EXPID := base.EXPID, CELLID := base.CELLID,
    RESTYPE := res.type.name, LEAKMTH := rs.leakMethod.name,
    ELTIME := res.elapsedTime, ELTIMEU := res.elapsedTime_u,
    TRACENUM := res.traceNumber,
    ANLFL := if res.valid then "Y".data else [],
    SRCXFN := res.waveform.edfilename,
    LIQUID := [], CONC := none, CONCU := [], CONCT := [],
    cursorValues := res.cursors, CTLFL := none, SBFL := none }

/-- `CONCT` string of a liquid protocol:
`p.protocol.conc_type.name.split('_')[-1]` (line 207). -/
def conctOf (ct : Concentration_Type) : Str :=
  ((splitOnChar '_' ct.name).getLast?).getD []

/-- One entry of `exec_ps` (lines 194-212); `none` when
`p.protocol.liquid` is `None` (the attribute access `liquid.name` would
raise). -/
def execPOf (p : ProtocolExecution) : Option ExecP :=
  match p.protocol.liquid with
  | none => none
  | some liq =>
    some { LIQUID := liq.name, CONC := p.protocol.conc,
           CONCU := p.protocol.conc_u, CONCT := conctOf p.protocol.conc_type,
           TIME := p.time, TIMEU := p.time_u,
           CTLFL := if p.protocol.isControl then "Y".data else [],
           SBFL := if p.protocol.isSelectiveBlocker then "Y".data else [] }

/-- The liquid junction potential used for one experiment's rows (lines
186-191): the results set's own when present, otherwise the trial's;
`none` if both are `None` (the attribute access then raises). -/
def resolveLjp (trialLjp : Option LiquidJunctionPotential) (rs : Results) :
    Option LiquidJunctionPotential :=
  match rs.ljp with
  | some l => some l
  | none => trialLjp

/-- Per-experiment slice of the four tables. -/
structure ExpTables where
  cellProps : List TED_CellProperty
  cursorDefs : List TED_CursorDefinition
  liqAdds : List TED_LiquidAddition
  resWide : List TED_ResultWide
deriving DecidableEq

/-- The body of `for exp in trial.experiments` (tedutils.py lines
161-295) for one experiment.  `none` models the run-time errors of that
body: missing first results set, `None` liquid junction potential on both
the results set and the trial, a liquid protocol without liquid, sorting
the empty `exec_ps` or `exp_res_wide` frames, or an empty `iloc`
selection in the ranges loop. -/
def experimentTables (trialLjp : Option LiquidJunctionPotential)
    (exp : Experiment) : Option ExpTables := do
  let rs ← exp.resultsSet.head?
  let base : LABase ← do
    let ljp ← resolveLjp trialLjp rs
    pure { EXPID := compositeId exp.id, CELLID := compositeId rs.cell.id,
           STIME := exp.startTime, LJP := ljp.value, LJPU := ljp.unit }

  let cursorDefs : List TED_CursorDefinition :=
    match rs.cursors with
    | none => []
    | some cs => cs.map (fun c =>
        { CURSOR := c.name, STIME := c.start, STIMEU := c.time_u,
          ETIME := c.stop, ETIMEU := c.time_u, CURSORT := c.ctype.name })
  let exec_ps ← (exp.protocols.filter
      (fun p => p.protocol.type = .CIPA_PROTOCOL_LIQUID)).mapM execPOf
  if exec_ps = [] then none else    -- sort_values on an empty frame raises
  let exp_las := dedupF (sortBy execPLe exec_ps)
  let exp_res_wide :=
    (rs.results.filter
      (fun res => res.type = .CIPA_RESULT_TYPE_CURRENT)).map
      (rwOfResult base rs)
  let cellProps := rs.cell.properties.map (fun p =>
    { EXPID := base.EXPID, CELLID := base.CELLID, PARAMCD := p.code,
      PARAM := p.displayName, VALUE := p.value, UNIT := p.unit })
  if exp_res_wide = [] then none else  -- sort_values on an empty frame raises
  let tmp := sortBy rwKeyLe exp_res_wide
  let las ← expLiqAdds tmp base exp_las
  let las := populateLiqAdds tmp las
  let resWide := backfill exp_res_wide las
  pure { cellProps := cellProps, cursorDefs := cursorDefs,
         liqAdds := las, resWide := resWide }

/-- The four dataframes returned by
`cells_cursors_liquids_results_dataframes`.  `resWide` rows still carry
their `SRCXFN` value; the rendering of the `ResultsWide` sheet drops that
column (line 309), so de-duplication and sorting are performed on rows
with `SRCXFN` blanked. -/
structure Dataframes where
  cellProps : List TED_CellProperty
  cursorsDefs : List TED_CursorDefinition
  liqAdds : List TED_LiquidAddition
  resWide : List TED_ResultWide
deriving DecidableEq

/-- `SRCXFN` column dropped from a wide row (line 309). -/
def dropSrcxfn (r : TED_ResultWide) : TED_ResultWide := { r with SRCXFN := [] }

/-- `cells_cursors_liquids_results_dataframes` (tedutils.py lines
144-320).  `none` models an uncaught error: any per-experiment failure, or
sorting the column-less empty `liquid_adds` / `res_wide` frames produced
by an empty experiment list. -/
def cells_cursors_liquids_results_dataframes (trial : Trial) :
    Option Dataframes := do
  let tables ← trial.experiments.mapM (experimentTables trial.ljp)
  let cell_props := (tables.map (·.cellProps)).flatten
  let cursors_defs := dedupF (tables.map (·.cursorDefs)).flatten
  let liquid_adds := (tables.map (·.liqAdds)).flatten
  let res_wide := (tables.map (·.resWide)).flatten
  if liquid_adds = [] then none else  -- sort_values on an empty frame raises
  let la_df := sortBy laKeyLe liquid_adds
  if res_wide = [] then none else     -- drop/sort on an empty frame raises
  let rw_df := sortBy rwKeyLe (dedupF (res_wide.map dropSrcxfn))
  pure { cellProps := cell_props, cursorsDefs := cursors_defs,
         liqAdds := la_df, resWide := rw_df }

/-!
### Waveform serialisation (waveforms.py, edfiles.py)
-/

/-- One dataframe column: header and cell values (`none` is `NaN`,
including the `NaN` padding `pd.concat(axis=1)` inserts below columns
shorter than the longest one). -/
abbrev FileColumn := Str × List (Option ℚ)

/-- An encapsulated waveform file's tabular content. -/
abbrev FileCsv := List FileColumn

/-- Signal column name built by `Waveform.timeseries_to_df` (waveforms.py
lines 101-106): `"trace_#" + str(tracenum) + "_" + signam + "_" + unit`,
with `signam` falling back to the lower-cased last `_`-chunk of
`cipaType` when `signalnam` is empty. -/
def signalColName (wf : Waveform) : Str :=
  let signam :=
    if wf.signalnam = [] then
      lowerStr (((splitOnChar '_' wf.cipaType).getLast?).getD [])
    else wf.signalnam
  "trace_#".data ++ intChars wf.tracenum ++ '_' :: signam ++ '_' :: wf.scale_u

/-- Physical values of a waveform: `digit * scale + origin` per sample
(waveforms.py line 110); `NaN` samples stay `NaN`. -/
def physValues (wf : Waveform) : List (Option ℚ) :=
  wf.digits.map (Option.map (fun d => d * wf.scale + wf.origin))

/-- `Waveform.timeseries_to_df` without the time column (waveforms.py
lines 84-113, `includetime=False`).  When `digits` is empty the source
attempts `digits_from_file`, which leaves them empty unless the waveform
points at an on-disk csv; in-memory waveforms therefore yield an empty
column. -/
def timeseriesCol (wf : Waveform) : FileColumn :=
  (signalColName wf, physValues wf)

/-- The time column `timeseries_to_df` inserts when `includetime=True`
(waveforms.py lines 114-123): header `"t_" + increment unit`, values
`linspace(0, (n-1)*increment, n)`, i.e. `j * increment`. -/
def timeCol (wf : Waveform) : FileColumn :=
  ('t' :: '_' :: wf.increment_u,
   (List.range wf.digits.length).map
     (fun j => wf.increment.map (fun inc => (Nat.cast j : ℚ) * inc)))

/-- Pad a column's values with `NaN` up to `len` rows, as `pd.concat`'s
index alignment does. -/
def padColumn (len : ℕ) (c : FileColumn) : FileColumn :=
  (c.1, c.2 ++ List.replicate (len - c.2.length) none)

/-- `waveforms_to_df` (waveforms.py lines 150-167): the first waveform
contributes the time axis and its signal column, the remaining waveforms
are column-appended; `wf_list[0]` on an empty list raises. -/
def waveforms_to_df (wfs : List Waveform) : Option FileCsv :=
  match wfs with
  | [] => none
  | wf0 :: rest =>
    let cols := timeCol wf0 :: timeseriesCol wf0 :: rest.map timeseriesCol
    let len := (cols.map (fun c => c.2.length)).foldr max 0
    some (cols.map (padColumn len))

/-- One encapsulated-data file of the exported dataset, tagged by the
container kind `to_xlsx` used (`EDCsvFile` plain / zip-compressed,
`EDXlsxFile` sheet). -/
inductive TedFile where
  | csv (name : Str) (content : FileCsv)
  | zipped (zipname : Str) (innername : Str) (content : FileCsv)
  | xlsxSheet (xlsxname : Str) (sheet : Str) (content : FileCsv)
deriving DecidableEq

/-!
### `voltage_command_dataframe` and `to_xlsx` (tedutils.py lines 132-141
and 323-467)
-/

/-- The `IntendedVoltageProtocol` sheet: the column headers and the
(time, voltage) rows.  A trial without voltage protocol yields a frame
with no columns at all. -/
structure IvpDf where
  columns : List Str
  rows : List (Option ℚ × Option ℚ)
deriving DecidableEq

/-- `voltage_command_dataframe` (tedutils.py lines 132-141): time series
of the first voltage protocol's waveform, de-duplicated; an empty frame
when the trial has no voltage protocol.  `none` models the attribute
error raised when the first voltage protocol has no waveform. -/
def voltage_command_dataframe (trial : Trial) : Option IvpDf :=
  match trial.protocols.find?
      (fun p => p.type = .CIPA_PROTOCOL_VOLTAGE) with
  | none => some { columns := [], rows := [] }
  | some p =>
    match p.waveform with
    | none => none
    | some wf =>
      let tc := timeCol wf
      let sc := timeseriesCol wf
      some { columns := [tc.1, sc.1], rows := dedupF (tc.2.zip sc.2) }

/-- Errors surfaced by `to_xlsx`: `EncapsulatedDataFileError` (core.py
lines 47-57) with its `filename`/`message` payload, or any other modelled
Python run-time error. -/
inductive TedErr where
  | encapsulatedDataFileError (filename : Str) (message : Str)
  | pyerr
deriving DecidableEq

deriving instance DecidableEq for Except

/-- The complete TED dataset written by `to_xlsx`: the six workbook
sheets plus the encapsulated waveform files. -/
structure TedDataset where
  gi : List (Str × Str)
  cellProps : List TED_CellProperty
  liqAdds : List TED_LiquidAddition
  cursorsDefs : List TED_CursorDefinition
  ivp : IvpDf
  resWide : List TED_ResultWide
  files : List TedFile
deriving DecidableEq

/-- `GeneralInformation` key/value rows (tedutils.py lines 339-351);
`DEVICE_ID` concatenates root and extension without separator. -/
def giRows (trial : Trial) : Option (List (Str × Str)) := do
  let d0 ← trial.devices.head?
  pure [
    ("STUDYID".data, trial.study.studyId),
    ("REPORT_TITLE".data, trial.study.report.title),
    ("REPORT_VERSION".data, trial.study.report.version),
    ("REPORT_DATE".data, trial.study.report.date),
    ("REPORT_DESCRIPTION".data, trial.study.report.text),
    ("DEVICE_ID".data, d0.id.root ++ d0.id.extension),
    ("DEVICE_CODE".data, d0.code),
    ("DEVICE_MODEL".data, d0.manufacturerModelName),
    ("DEVICE_SOFTWARE".data, d0.deviceSoftwareName)]

/-- Per-experiment step of the csv/zip/xlsx waveform-file loops
(tedutils.py lines 365-436): compute the sheet name from the first
results set's cell id, serialise the waveforms, and rewrite the
`SRCXFN` of the matching LiquidAdditions rows. -/
def fileForExperiment (edformat : Str) (exp : Experiment) :
    Option (Str × Str × TedFile × Str) := do
  -- returns (expid, sheetname, file, SRCXFN value)
  let expid := compositeId exp.id
  let rs ← exp.resultsSet.head?
  let sheetname := compositeId rs.cell.id
  let content ← waveforms_to_df (rs.results.map (·.waveform))
  if edformat = "csv".data then
    let csvfn := sheetname ++ ".csv".data
    pure (expid, sheetname, .csv csvfn content, csvfn)
  else if edformat = "zip".data then
    let csvfn := sheetname ++ ".csv.zip".data
    pure (expid, sheetname, .zipped csvfn (dropLastN 4 csvfn) content,
      csvfn ++ ':' :: dropLastN 4 csvfn)
  else
    let edfn := "waveforms.xlsx".data
    pure (expid, sheetname, .xlsxSheet edfn sheetname content,
      edfn ++ ':' :: sheetname)

/-- `la_df.loc[(EXPID == expid) & (CELLID == sheetname), "SRCXFN"] = v`
(tedutils.py lines 380-382 / 402-404 / 428-430). -/
def setSrcxfn (la_df : List TED_LiquidAddition)
    (expid sheetname v : Str) : List TED_LiquidAddition :=
  la_df.map (fun la =>
    if la.EXPID = expid ∧ la.CELLID = sheetname then { la with SRCXFN := v }
    else la)

/-- `to_xlsx` (tedutils.py lines 323-467).  Produces the workbook sheets
and waveform files; `.error` models an uncaught exception, with
`EncapsulatedDataFileError` raised for an unsupported `edformat` (lines
437-440) distinguished from other run-time errors. -/
def to_xlsx (trial : Trial) (edformat : Str) : Except TedErr TedDataset := do
  let gi ← match giRows trial with
    | none => .error .pyerr
    | some gi => pure gi
  let ivp ← match voltage_command_dataframe trial with
    | none => .error .pyerr
    | some ivp => pure ivp
  let dfs ← match cells_cursors_liquids_results_dataframes trial with
    | none => .error .pyerr
    | some dfs => pure dfs
  if edformat = "csv".data ∨ edformat = "zip".data ∨
      edformat = "xlsx".data then
    let steps ← match trial.experiments.mapM (fileForExperiment edformat) with
      | none => .error .pyerr
      | some steps => pure steps
    let la_df := steps.foldl
      (fun la_df st => setSrcxfn la_df st.1 st.2.1 st.2.2.2) dfs.liqAdds
    pure { gi := gi, cellProps := dfs.cellProps, liqAdds := la_df,
           cursorsDefs := dfs.cursorsDefs, ivp := ivp,
           resWide := dfs.resWide,
           files := steps.map (fun st => st.2.2.1) }
  else
    .error (.encapsulatedDataFileError edformat
      "Unsopported file format for encapsulated data".data)

/-!
### `from_xlsx` (tedutils.py lines 470-882)
-/

/-- Errors surfaced by the importer.  `ParseFileError` is declared in
core.py (lines 35-44); whether the importer ever signals it is settled in
the theorems below. -/
inductive ImportErr where
  | keyError                                   -- failed dict/Enum lookup
  | attributeError                             -- attribute access on None
  | parseFileError (filename : Str) (message : Str)
  | pyerr                                      -- other run-time failure
deriving DecidableEq

/-- The `conctypes` dictionary (tedutils.py lines 493-498): only NOMINAL
and MEASURED are mapped; `none` is an uncaught `KeyError` on lookup. -/
def conctypes (s : Str) : Option Concentration_Type :=
  if s = "NOMINAL".data then
    some .CIPA_PROTOCOL_LIQUID_CONCENTRATION_NOMINAL
  else if s = "MEASURED".data then
    some .CIPA_PROTOCOL_LIQUID_CONCENTRATION_MEASURED
  else none

/-- The `cursortypes` dictionary (tedutils.py lines 499-504). -/
def cursortypes (s : Str) : Option Cursor_Type :=
  if s = "AVERAGE".data then some .AVERAGE
  else if s = "MAXIMUM".data then some .MAXIMUM
  else if s = "MINIMUM".data then some .MINIMUM
  else if s = "CUSTOM".data then some .CUSTOM
  else none

/-- `LeakMethod_Type[name]` (Enum member lookup by name, line 688/696). -/
def leakMethodOfName (s : Str) : Option LeakMethod_Type :=
  (([LeakMethod_Type.CIPA_LEAK_METHOD_NONE, .CIPA_LEAK_METHOD_SMALL_PULSE,
     .CIPA_LEAK_METHOD_FAST_LEAK, .CIPA_LEAK_METHOD_SWEEP,
     .CIPA_LEAK_METHOD_ZERO_CURSOR,
     .CIPA_LEAK_METHOD_UNKNOWN]).find? (fun m => m.name = s))

/-- `Result_Type[name]` (Enum member lookup by name, line 872). -/
def resultTypeOfName (s : Str) : Option Result_Type :=
  (([Result_Type.CIPA_RESULT_TYPE_VOLTAGE, .CIPA_RESULT_TYPE_CURRENT,
     .CIPA_RESULT_TYPE_TEMPERATURE, .CIPA_RESULT_TYPE_SERIES_RESISTANCE,
     .CIPA_RESULT_TYPE_UNKNOWN]).find? (fun m => m.name = s))

/-- `la["CTLFL"].map(str).replace('nan', '').str.upper()` (lines
547-548). -/
def cleanFlag (s : Str) : Str :=
  upperStr (if s = "nan".data then [] else s)

/-- `gi[gi["PARAMCD"] == key]["VALUE"].iloc[0]` (lines 511-530): value of
a GeneralInformation key; `none` when the key is missing (`iloc[0]`
raises). -/
def giValue (gi : List (Str × Str)) (key : Str) : Option Str :=
  (gi.find? (fun kv => kv.1 = key)).map (·.2)

/-- Python float subtraction with `NaN` propagation. -/
def subOpt (a b : Option ℚ) : Option ℚ :=
  match a, b with
  | some x, some y => some (x - y)
  | _, _ => none

/-- Time-axis normalisation of an imported waveform file (tedutils.py
lines 811-832): returns the (head, step) pair in the units the importer
stores.  `none` values are `NaN` (note `NaN < 0.001` is false in
Python). -/
def normalizeTime (time_units : Str) (time_head time_step : Option ℚ) :
    Option ℚ × Option ℚ :=
  if time_units = "s".data then
    (time_head.map (· * 1000), time_step.map (· * 1000))
  else if time_units = "ms".data then
    (time_head, time_step)
  else if time_units = "us".data then
    (time_head.map (· * (1 / 1000)), time_step.map (· * (1 / 1000)))
  else
    -- time units unknown: set to ms and infer scale from step size
    if (match time_step with
        | some v => decide (v < 1 / 1000)
        | none => false) then
      -- "Values are likely in seconds"
      (time_head.map (· * (1 / 1000)), time_step.map (· * 1000))
    else
      (time_head, time_step)

/-- Outcome of the `SRCXFN` extension dispatch (tedutils.py lines
786-810). -/
inductive LoadOutcome where
  | loaded (data : FileCsv)      -- file read into `waveformdata_from_file`
  | unsupportedKept              -- "Unsupported format" printed, data kept
  | fileError                    -- the container/file could not be read
deriving DecidableEq

/-- The `SRCXFN` extension dispatch (tedutils.py lines 786-810): a
`.csv` suffix selects plain csv or, with an `archive:inner` locator whose
archive ends in `.zip`, zip-contained csv; a `.xlsx` suffix selects
spreadsheet loading; anything else prints `Unsupported format` and leaves
the previously loaded data in place. -/
def loadWaveformFile (files : List TedFile) (fname : Str) : LoadOutcome :=
  if lowerStr (takeLastN 4 fname) = ".csv".data then
    match splitOnChar ':' fname with
    | [single] =>
      match files.findSome? (fun f =>
          match f with
          | .csv n c => if n = single then some c else none
          | _ => none) with
      | some c => .loaded c
      | none => .fileError
    | p0 :: p1 :: _ =>
      if lowerStr (takeLastN 4 p0) = ".zip".data then
        match files.findSome? (fun f =>
            match f with
            | .zipped z i c => if z = p0 ∧ i = p1 then some c else none
            | _ => none) with
        | some c => .loaded c
        | none => .fileError
      else .unsupportedKept
    | [] => .unsupportedKept
  else if lowerStr (takeLastN 5 fname) = ".xlsx".data then
    match files.findSome? (fun f =>
        match f with
        | .xlsxSheet n _ c => if n = fname then some c else none
        | _ => none) with
    | some c => .loaded c
    | none => .fileError
  else .unsupportedKept

/-- Keys of one `ResultsWide` row dict in insertion order (before the
`SRCXFN` column is dropped): `TED_ResultWide.__init__` order, then the
cursor columns, then the back-filled `CTLFL`/`SBFL` keys when present. -/
def rwRowKeysPreDrop (r : TED_ResultWide) : List Str :=
  ["EXPID".data, "CELLID".data, "RESTYPE".data, "LEAKMTH".data,
   "ELTIME".data, "ELTIMEU".data, "TRACENUM".data, "ANLFL".data,
   "SRCXFN".data, "LIQUID".data, "CONC".data, "CONCU".data, "CONCT".data]
  ++ r.cursorValues.map (·.1)
  ++ (match r.CTLFL with | some _ => ["CTLFL".data] | none => [])
  ++ (match r.SBFL with | some _ => ["SBFL".data] | none => [])

/-- Columns of the written `ResultsWide` sheet: first-appearance union of
the row dict keys (as `pd.DataFrame` builds them), minus the dropped
`SRCXFN` column (line 309). -/
def rwSheetColumns (rows : List TED_ResultWide) : List Str :=
  (dedupF (rows.flatMap rwRowKeysPreDrop)).filter (· ≠ "SRCXFN".data)

/-- Value of a cursor-named cell of a wide row: the cursor's evaluated
value, or `NaN` when the row dict lacks that cursor key. -/
def rwCellValue (r : TED_ResultWide) (cn : Str) : Option ℚ :=
  match r.cursorValues.lookup cn with
  | some v => v
  | none => none

/-- The per-trace evaluated cursor list `cwf` (tedutils.py lines
767-777): one `(name, value)` pair per CursorsDefinitions row whose name
appears among the wide columns. -/
def importedCursors (cd : List TED_CursorDefinition)
    (cols : List Str) (r : TED_ResultWide) : List (Str × Option ℚ) :=
  ((cd.map (·.CURSOR)).filter (fun cn => cn ∈ cols)).map
    (fun cn => (cn, rwCellValue r cn))

/-- State of the `waveformdata_from_file` cache dict (lines 725-729). -/
structure WfCache where
  filename : Str
  data : Option FileCsv
  t_increase_ms : Option ℚ
deriving DecidableEq

/-- `CursorsDefinitions` rows to shared `Cursor` templates (lines
640-652); `none` is the `KeyError` for an unmapped `CURSORT`. -/
def importRsCursors (cd : List TED_CursorDefinition) :
    Option (List Cursor) :=
  cd.mapM (fun c => (cursortypes (upperStr c.CURSORT)).map (fun ty =>
    { name := c.CURSOR, start := c.STIME, stop := c.ETIME,
      time_u := c.STIMEU, ctype := ty }))

/-- The distinct liquids of the LiquidAdditions sheet with their
generated ids (lines 596-604). -/
def importLiquids (la : List TED_LiquidAddition) : List Liquid :=
  (dedupF (la.map (·.LIQUID))).enum.map (fun ia =>
    { id := { root := "L-".data ++ natChars ia.1, extension := [] },
      name := ia.2 })

/-- The six-column key of `liquid_ps` (lines 606-608). -/
structure LPKey where
  LIQUID : Str
  CONC : ℚ
  CONCU : Str
  CONCT : Str
  CTLFL : Str
  SBFL : Str
deriving DecidableEq

/-- Key of one (cleaned) LiquidAdditions row. -/
def lpKeyOf (r : TED_LiquidAddition) : LPKey :=
  { LIQUID := r.LIQUID, CONC := r.CONC, CONCU := r.CONCU, CONCT := r.CONCT,
    CTLFL := r.CTLFL, SBFL := r.SBFL }

/-- One LiquidProtocol of `liquid_ps` (lines 610-624): merged liquid,
mapped concentration type, flag booleans.  The display-name f-string
(`f"{LIQUID} {CONC} {CONCU}"`) is not modelled (Python float formatting;
nothing reads the name back).  `none` is the `KeyError` for a `CONCT`
outside the `conctypes` dictionary, or a failed liquid merge. -/
def lpOfKey (liquids : List Liquid) (idx : ℕ) (k : LPKey) :
    Option Protocol := do
  let liq ← liquids.find? (fun l => l.name = k.LIQUID)
  let ct ← conctypes (upperStr k.CONCT)
  pure { id := { root := "P-".data ++ natChars idx ++ '_' :: liq.id.root,
                 extension := [] },
         type := .CIPA_PROTOCOL_LIQUID, name := [],
         waveform := none, liquid := some liq,
         conc := k.CONC, conc_u := k.CONCU, conc_type := ct,
         isControl := upperStr k.CTLFL = "Y".data,
         isSelectiveBlocker := upperStr k.SBFL = "Y".data }

/-- `liquid_ps` (lines 606-624): de-duplicated six-column keys with their
LiquidProtocol objects. -/
def importLiquidPs (liquids : List Liquid) (la : List TED_LiquidAddition) :
    Option (List (LPKey × Protocol)) :=
  (dedupF (la.map lpKeyOf)).enum.mapM (fun ik =>
    (lpOfKey liquids ik.1 ik.2).map (fun p => (ik.2, p)))

/-- The LiquidProtocol attached to a LiquidAdditions row by the merge of
line 627-632 (join on the six columns; `liquid_ps` is duplicate-free on
exactly that key, so each row matches at most once). -/
def laProtocol (lps : List (LPKey × Protocol)) (r : TED_LiquidAddition) :
    Option Protocol :=
  (lps.find? (fun kp => kp.1 = lpKeyOf r)).map (·.2)

/-- The `vcwf` intended-voltage waveform (lines 564-582); `none` when the
sheet has no columns or fewer than two rows (`iloc` raises). -/
def importVcwf (ivp : IvpDf) : Option Waveform := do
  let c0 ← ivp.columns.head?
  let c1 ← ivp.columns.tail.head?
  let t_units := ((splitOnChar '_' c0).getLast?).getD []
  let v_units := ((splitOnChar '_' c1).getLast?).getD []
  let r0 ← ivp.rows.head?
  let r1 ← ivp.rows.tail.head?
  pure { head := some 0, head_u := t_units,
         increment := subOpt r1.1 r0.1, increment_u := t_units,
         origin := 0, origin_u := v_units, scale := 1, scale_u := v_units,
         digits := ivp.rows.map (·.2),
         cipaType := "CIPA_PROTOCOL_VOLTAGE".data,
         sequenceType := "CIPA_TRACE_RECONSTRUTED".data,
         displayName := "Step ramp voltage protocol for hERG".data,
         tracenum := -1, signalnam := "voltage".data, edfilename := [] }

/-- One import result row: the wide row together with the `cipa_lp`
column added by the left-merge of lines 673-678 (`none` is the merge's
`NaN` for a trace that is no addition's `FIRST`); a row is duplicated
when several addition rows share its trace number as `FIRST`. -/
def mergeCipaLp (la : List (TED_LiquidAddition × Option Protocol))
    (expres : List TED_ResultWide) :
    List (TED_ResultWide × Option Protocol) :=
  expres.flatMap (fun r =>
    match la.filter (fun x =>
        x.1.EXPID = r.EXPID ∧ x.1.CELLID = r.CELLID ∧
        x.1.FIRST = r.TRACENUM) with
    | [] => [(r, none)]
    | ms => ms.map (fun m => (r, m.2)))

/-- `Trace_#<n>_` column-name filter (lines 834-838), case-insensitive
containment. -/
def matchedColumns (data : FileCsv) (tracenum : ℤ) : List Str :=
  let colbase := "Trace_#".data ++ intChars tracenum ++ "_".data
  (data.map (·.1)).filter
    (fun x => decide (lowerStr colbase <:+: lowerStr x))

/-- `cipaType` of a waveform column from its `_`-separated name (lines
839-849): `none` when the name has fewer than two chunks
(`colparts[-2]` raises). -/
def colKind (colname : Str) : Option (Str × Str) :=
  match (splitOnChar '_' colname).reverse with
  | last :: prev :: _ => some (eraseAllChar '\'' last, prev)
  | _ => none

/-- `cipaType` string selected for a column type chunk (lines 843-849). -/
def cipaTypeOfColType (coltype : Str) : Str :=
  if upperStr coltype = "CURRENT".data then "CIPA_RESULT_TYPE_CURRENT".data
  else if upperStr coltype = "VOLTAGE".data then
    "CIPA_RESULT_TYPE_VOLTAGE".data
  else if upperStr coltype = "TEMPERATURE".data then
    "CIPA_RESULT_TYPE_TEMPERATURE".data
  else "CIPA_RESULT_TYPE_UNKNOWN".data

/-- Column of a file by exact header name (`data[colname]`). -/
def fileColumn (data : FileCsv) (colname : Str) : List (Option ℚ) :=
  ((data.find? (fun c => c.1 = colname)).map (·.2)).getD []

/-- The results created from one matched column of one wide row (lines
839-878). -/
def resultOfColumn (r : TED_ResultWide) (validfl : Bool)
    (cwf : List (Str × Option ℚ)) (t_inc head : Option ℚ)
    (data : FileCsv) (colname : Str) : Option (List Result) := do
  let ku ← colKind colname
  let colunits := ku.1
  let coltype := ku.2
  if cipaTypeOfColType coltype = r.RESTYPE then
    let rty ← resultTypeOfName r.RESTYPE
    pure [{ traceNumber := r.TRACENUM, valid := validfl, type := rty,
            elapsedTime := r.ELTIME, elapsedTime_u := r.ELTIMEU,
            waveform := {
              head := head, head_u := "ms".data,
              increment := t_inc, increment_u := "ms".data,
              origin := 0, origin_u := colunits,
              scale := 1, scale_u := colunits,
              digits := fileColumn data colname,
              cipaType := r.RESTYPE,
              sequenceType := "CIPA_TRACE_RECORDED".data,
              displayName := coltype, tracenum := r.TRACENUM,
              signalnam := coltype, edfilename := [] },
            cursors := cwf }]
  else
    pure []

/-- One iteration of the `for res in expres.itertuples()` loop (lines
731-878) for one experiment: protocol executions are always appended;
results are created only when exactly one LiquidAdditions row covers the
trace number; the waveform file is (re)loaded when `SRCXFN` differs from
the cached filename, normalising the time axis. -/
def importRow (files : List TedFile)
    (la : List (TED_LiquidAddition × Option Protocol))
    (vcp : Protocol) (cd : List TED_CursorDefinition) (cols : List Str)
    (cellid : Str)
    (st : List ProtocolExecution × List Result × WfCache)
    (rlp : TED_ResultWide × Option Protocol) :
    Except ImportErr (List ProtocolExecution × List Result × WfCache) := do
  let (protocols, results, cache) := st
  let r := rlp.1
  let protocols := protocols ++
    (match rlp.2 with
     | some lp => [{ protocol := lp, time := r.ELTIME, time_u := r.ELTIMEU }]
     | none => []) ++
    [{ protocol := vcp, time := r.ELTIME, time_u := r.ELTIMEU }]
  let la_row := la.filter (fun x =>
    x.1.EXPID = r.EXPID ∧ x.1.CELLID = cellid ∧
    x.1.FIRST ≤ r.TRACENUM ∧ r.TRACENUM ≤ x.1.LAST)
  match la_row with
  | [lr] => do
    let valid_traces ←
      match (expand_numbers_list (some lr.1.ANL)).bind
          (fun l => l.mapM parsePyInt) with
      | none => .error .pyerr            -- ValueError from int()
      | some vt => pure vt
    let validfl := r.TRACENUM ∈ valid_traces
    let cwf := importedCursors cd cols r
    -- time_units/time_head are reset per row and overwritten on load
    let loadedNow := cache.filename = [] ∨ cache.filename ≠ lr.1.SRCXFN
    let cache ←
      if loadedNow then do
        let cache := { cache with filename := lr.1.SRCXFN }
        match loadWaveformFile files lr.1.SRCXFN with
        | .loaded d => pure { cache with data := some d }
        | .unsupportedKept => pure cache
        | .fileError => .error .pyerr
      else pure cache
    let data ←
      match cache.data with
      | none => .error .attributeError   -- `None.columns` on unloaded data
      | some d => pure d
    let (head, cache) ←
      if loadedNow then do
        let c0 ←
          match data.head? with
          | none => .error .pyerr        -- `columns[0]` on a column-less frame
          | some c => pure c
        let time_units := lowerStr (((splitOnChar '_' c0.1).getLast?).getD [])
        let cell0 ←
          match c0.2.head? with
          | none => .error .pyerr        -- `iloc[0, 0]` on an empty frame
          | some v => pure v
        let cell1 ←
          match c0.2.tail.head? with
          | none => .error .pyerr        -- `iloc[1, 0]` on a 1-row frame
          | some v => pure v
        let hs := normalizeTime time_units cell0 (subOpt cell1 cell0)
        pure (hs.1, { cache with t_increase_ms := hs.2 })
      else
        pure ((some 0 : Option ℚ), cache)
    let newResults ←
      match (matchedColumns data r.TRACENUM).mapM
          (resultOfColumn r validfl cwf cache.t_increase_ms head data) with
      | none => .error .pyerr
      | some rss => pure rss.flatten
    pure (protocols, results ++ newResults, cache)
  | _ => pure (protocols, results, cache)

/-- The body of `for experiment in experiments.itertuples()` (lines
662-880): build one `Experiment` from its wide rows. -/
def importExperiment (files : List TedFile)
    (la : List (TED_LiquidAddition × Option Protocol))
    (vcp : Protocol) (cd : List TED_CursorDefinition)
    (rsCursors : List Cursor) (cols : List Str)
    (cp : List TED_CellProperty) (rw : List TED_ResultWide)
    (key : Str × Str × Str) : Except ImportErr Experiment := do
  let (expid, cellid, stime) := key
  let expres := rw.filter (fun r => r.EXPID = expid ∧ r.CELLID = cellid)
  let merged := mergeCipaLp la expres
  let lmNames := dedupF (merged.map (·.1.LEAKMTH))
  let lm ←
    match lmNames with
    | [] => pure LeakMethod_Type.CIPA_LEAK_METHOD_NONE  -- warning logged
    | n :: _ =>    -- a multi-method experiment logs a warning, uses the first
      match leakMethodOfName n with
      | none => .error .keyError
      | some m => pure m
  let cell_p := cp.filter (fun p => p.EXPID = expid ∧ p.CELLID = cellid)
  let cp_node := cell_p.map (fun p =>
    { code := p.PARAMCD, displayName := p.PARAM,
      value := p.VALUE, unit := p.UNIT })
  let init : List ProtocolExecution × List Result × WfCache :=
    ([], [], { filename := [], data := none, t_increase_ms := some 0 })
  let st ← merged.foldlM (importRow files la vcp cd cols cellid) init
  pure { id := { root := expid, extension := cellid },
         startTime := stime, protocols := st.1,
         resultsSet := [{
           cell := { id := { root := cellid, extension := [] },
                     properties := cp_node },
           leakMethod := lm, ljp := none, cursors := some rsCursors,
           results := st.2.1 }] }

/-- One `GeneralInformation` lookup of the importer (lines 511-530):
`iloc[0]` on a missing key raises. -/
def giNeed (gi : List (Str × Str)) (k : String) : Except ImportErr Str :=
  match giValue gi k.data with
  | none => .error .pyerr
  | some v => pure v

/-- `from_xlsx` (tedutils.py lines 470-882): reconstruct a Trial from a
TED dataset. -/
def from_xlsx (ds : TedDataset) : Except ImportErr Trial := do
  let studyId ← giNeed ds.gi "STUDYID"
  let rTitle ← giNeed ds.gi "REPORT_TITLE"
  let rVersion ← giNeed ds.gi "REPORT_VERSION"
  let rDate ← giNeed ds.gi "REPORT_DATE"
  let rText ← giNeed ds.gi "REPORT_DESCRIPTION"
  let dId ← giNeed ds.gi "DEVICE_ID"
  let dCode ← giNeed ds.gi "DEVICE_CODE"
  let dModel ← giNeed ds.gi "DEVICE_MODEL"
  let dSoftware ← giNeed ds.gi "DEVICE_SOFTWARE"
  let la := ds.liqAdds.map (fun r =>
    { r with CTLFL := cleanFlag r.CTLFL, SBFL := cleanFlag r.SBFL })
  let la0 ←
    match la.head? with
    | none => .error .pyerr              -- `la["LJP"][0]` on an empty sheet
    | some r => pure r
  let vcwf ←
    match importVcwf ds.ivp with
    | none => .error .pyerr
    | some w => pure w
  let vcp : Protocol :=
    { id := { root := "PV-10001".data, extension := [] },
      type := .CIPA_PROTOCOL_VOLTAGE,
      name := "Intended voltage command".data,
      waveform := some vcwf, liquid := none, conc := 0, conc_u := [],
      conc_type := .CIPA_PROTOCOL_LIQUID_CONCENTRATION_UNKNOWN,
      isControl := false, isSelectiveBlocker := false }
  let liquids := importLiquids la
  let lps ←
    match importLiquidPs liquids la with
    | none => .error .keyError           -- conctypes[CONCT.upper()]
    | some lps => pure lps
  let laLp := la.map (fun r => (r, laProtocol lps r))
  let rsCursors ←
    match importRsCursors ds.cursorsDefs with
    | none => .error .keyError           -- cursortypes[CURSORT.upper()]
    | some cs => pure cs
  let cols := rwSheetColumns ds.resWide
  let expKeys := dedupF (ds.liqAdds.map (fun r => (r.EXPID, r.CELLID, r.STIME)))
  let exps ← expKeys.mapM
    (importExperiment ds.files laLp vcp ds.cursorsDefs rsCursors cols
      ds.cellProps ds.resWide)
  pure { study := { studyId := studyId,
                    report := { title := rTitle, version := rVersion,
                                date := rDate, text := rText } },
         devices := [{ id := { root := dId, extension := [] },
                       code := dCode, manufacturerModelName := dModel,
                       deviceSoftwareName := dSoftware }],
         ljp := some { value := la0.LJP, unit := la0.LJPU },
         liquids := liquids,
         protocols := vcp :: lps.map (·.2),
         experiments := exps }

/-!
### The ResultsWide-equivalent projection of a Trial

The round-trip property (spec §8) compares trials through their
"ResultsWide-equivalent projection": per experiment the trace numbers,
cursor values and physical sample values of the current results (in the
ResultsWide sort order) and the `[FIRST, LAST]` liquid ranges.
-/

/-- ResultsWide sort key restricted to the rows of one experiment
(`EXPID`/`CELLID` constant): elapsed time, then trace number. -/
def resKeyLe (a b : Result) : Bool :=
  if a.elapsedTime ≠ b.elapsedTime then
    decide (a.elapsedTime < b.elapsedTime)
  else a.traceNumber ≤ b.traceNumber

/-- Projected view of one current result: trace number, cursor values,
physical samples. -/
structure ProjRow where
  tracenum : ℤ
  cursors : List (Str × Option ℚ)
  samples : List (Option ℚ)
deriving DecidableEq

/-- Projection of one experiment: per current result (in sorted order)
its trace number, cursor values and physical samples; plus the
`[FIRST, LAST]` ranges of its LiquidAdditions rows. -/
structure ExpProjection where
  rows : List ProjRow
  ranges : List (ℤ × ℤ)
deriving DecidableEq

/-- Projection of one experiment (`none` when the tabular projection
builder fails on it). -/
def experimentProjection (tljp : Option LiquidJunctionPotential)
    (exp : Experiment) : Option ExpProjection := do
  let tbl ← experimentTables tljp exp
  let rs ← exp.resultsSet.head?
  let crs := sortBy resKeyLe
    (rs.results.filter (fun r => r.type = .CIPA_RESULT_TYPE_CURRENT))
  pure { rows := crs.map (fun r =>
           { tracenum := r.traceNumber, cursors := r.cursors,
             samples := physValues r.waveform }),
         ranges := tbl.liqAdds.map (fun la => (la.FIRST, la.LAST)) }

/-- Projection of a whole trial, experiment by experiment. -/
def trialProjection (trial : Trial) : Option (List ExpProjection) :=
  trial.experiments.mapM (experimentProjection trial.ljp)

/-- Two physical sample values agree within the round-trip tolerance
1e-9 (`NaN` only matches `NaN`). -/
def sampleClose (a b : Option ℚ) : Prop :=
  match a, b with
  | some x, some y => |x - y| ≤ 1 / 1000000000
  | none, none => True
  | _, _ => False

/-- Element-wise agreement of two experiment projections: equal liquid
ranges, trace numbers and cursor values, and physical samples within
tolerance. -/
def projMatches (p q : ExpProjection) : Prop :=
  p.ranges = q.ranges ∧ p.rows.length = q.rows.length ∧
  ∀ rp ∈ p.rows.zip q.rows,
    rp.1.tracenum = rp.2.tracenum ∧ rp.1.cursors = rp.2.cursors ∧
    rp.1.samples.length = rp.2.samples.length ∧
    ∀ ab ∈ rp.1.samples.zip rp.2.samples, sampleClose ab.1 ab.2

/-!
### Specification-side predicates for the trace-range reconstruction

These are worded from the specification text, independently of the
implementation, and compared with it in the theorems below.
-/

/-- `n` is the trace number of the earliest recorded Result with elapsed
time at or after `t`. -/
def IsFirstTraceAtOrAfter (results : List Result) (t : ℚ) (n : ℤ) :
    Prop :=
  ∃ r ∈ results, r.traceNumber = n ∧ t ≤ r.elapsedTime ∧
    ∀ r2 ∈ results, t ≤ r2.elapsedTime → r.elapsedTime ≤ r2.elapsedTime

/-- `n` is the trace number of the latest recorded Result with elapsed
time strictly before `t`. -/
def IsLastTraceBefore (results : List Result) (t : ℚ) (n : ℤ) : Prop :=
  ∃ r ∈ results, r.traceNumber = n ∧ r.elapsedTime < t ∧
    ∀ r2 ∈ results, r2.elapsedTime < t → r2.elapsedTime ≤ r.elapsedTime

/-- `n` is the trace number of the last recorded Result (the one with the
latest elapsed time). -/
def IsLastRecordedTrace (results : List Result) (n : ℤ) : Prop :=
  ∃ r ∈ results, r.traceNumber = n ∧
    ∀ r2 ∈ results, r2.elapsedTime ≤ r.elapsedTime

/-- Overwrite the `LAST` field of the final list element (the effect of
`exp_liq_adds[-1].LAST = ...` after the loop, line 267). -/
def setFinalLAST (n : ℤ) :
    List TED_LiquidAddition → List TED_LiquidAddition
  | [] => []
  | [la] => [{ la with LAST := n }]
  | la :: rest => la :: setFinalLAST n rest

/-- Recursive restatement of the `for exp_la in exp_las` loop in direct
(non-accumulator) style: the produced list in forward order, each
addition's `LAST` taken from the *next* addition's time and the final
addition's `LAST` left at its initial `0` (it is overwritten by
`expLiqAdds`).  Proved equal to `rangesLoop` below. -/
def rangesChain (tmp : List TED_ResultWide) (base : LABase) :
    List ExecP → Option (List TED_LiquidAddition)
  | [] => some []
  | [e] => (rowAtOrAfter tmp e.TIME).map
      (fun rf => [laOfExec base e rf.TRACENUM])
  | e :: e' :: rest => do
    let rf ← rowAtOrAfter tmp e.TIME
    let rl ← rowBefore tmp e'.TIME
    let r ← rangesChain tmp base (e' :: rest)
    pure ({ laOfExec base e rf.TRACENUM with LAST := rl.TRACENUM } :: r)

/-!
### Specification-side description of `expand_numbers_list`

Worded from the spec: well-formed ranges expand, single tokens are kept,
other tokens are skipped.
-/

/-- Whether a `-`-split token avoids the `int()` calls that can raise:
only two-part tokens parse both parts. -/
def tokParses (item : List Str) : Bool :=
  match item with
  | [a, b] => (parsePyInt a).isSome && (parsePyInt b).isSome
  | _ => true

/-- Expansion of one token as the spec describes it: a range `a-b` with
`a ≤ b` becomes `a..b`, a single token is kept, anything else is
skipped. -/
def expandSpecTok (item : List Str) : List Str :=
  match item with
  | [a, b] =>
    match parsePyInt a, parsePyInt b with
    | some va, some vb =>
      if va ≤ vb then
        (List.range (vb - va).toNat.succ).map (fun k => intChars (va + k))
      else []
    | _, _ => []
  | [a] => [a]
  | _ => []

/-!
### Concrete instances used by witnesses and counterexamples
-/

/-- A current-trace waveform of the example trial. -/
def exWf (n : ℤ) : Waveform :=
  { head := some 0, head_u := "ms".data, increment := some 1,
    increment_u := "ms".data, origin := 0, origin_u := "pA".data,
    scale := 1, scale_u := "pA".data, digits := [some 1, some 2],
    cipaType := "CIPA_RESULT_TYPE_CURRENT".data,
    sequenceType := "CIPA_TRACE_RECORDED".data,
    displayName := "current".data, tracenum := n,
    signalnam := "current".data, edfilename := "CELL1.csv".data }

/-- A current result of the example trial, trace `n` at `t` seconds. -/
def exRes (n : ℤ) (t : ℚ) : Result :=
  { traceNumber := n, valid := true, type := .CIPA_RESULT_TYPE_CURRENT,
    elapsedTime := t, elapsedTime_u := "s".data, waveform := exWf n,
    cursors := [("Peak".data, some (-150))] }

/-- The example liquid. -/
def exLiquid : Liquid :=
  { id := { root := "L-1".data, extension := [] }, name := "Dofetilide".data }

/-- The example liquid protocol at concentration `c`. -/
def exLiqProt (c : ℚ) : Protocol :=
  { id := { root := "P-1".data, extension := [] },
    type := .CIPA_PROTOCOL_LIQUID, name := [], waveform := none,
    liquid := some exLiquid, conc := c, conc_u := "uM".data,
    conc_type := .CIPA_PROTOCOL_LIQUID_CONCENTRATION_NOMINAL,
    isControl := false, isSelectiveBlocker := false }

/-- Execution of the example liquid protocol at time `t`. -/
def exLiqExec (c t : ℚ) : ProtocolExecution :=
  { protocol := exLiqProt c, time := t, time_u := "s".data }

/-- The example intended-voltage waveform. -/
def exVoltWf : Waveform :=
  { head := some 0, head_u := "ms".data, increment := some 1,
    increment_u := "ms".data, origin := 0, origin_u := "mV".data,
    scale := 1, scale_u := "mV".data,
    digits := [some (-80), some 40, some 40],
    cipaType := "CIPA_PROTOCOL_VOLTAGE".data,
    sequenceType := "CIPA_TRACE_RECONSTRUTED".data, displayName := "v".data,
    tracenum := -1, signalnam := "voltage".data, edfilename := [] }

/-- The example voltage protocol. -/
def exVoltProt : Protocol :=
  { id := { root := "PV-1".data, extension := [] },
    type := .CIPA_PROTOCOL_VOLTAGE, name := "v".data,
    waveform := some exVoltWf, liquid := none, conc := 0, conc_u := [],
    conc_type := .CIPA_PROTOCOL_LIQUID_CONCENTRATION_UNKNOWN,
    isControl := false, isSelectiveBlocker := false }

/-- The example cursor definition. -/
def exCursor : Cursor :=
  { name := "Peak".data, start := 2, stop := 3, time_u := "ms".data,
    ctype := .MINIMUM }

/-- The example results set: ten current traces at t = 0..9 s. -/
def exResults : Results :=
  { cell := { id := { root := "CELL1".data, extension := [] },
              properties := [] },
    leakMethod := .CIPA_LEAK_METHOD_NONE,
    ljp := some { value := some 4, unit := "mV".data },
    cursors := some [exCursor],
    results := (List.range 10).map (fun i => exRes (i + 1) i) }

/-- The example experiment: liquid additions at t = 0 s and t = 5 s,
traces at t = 0..9 s. -/
def exExperiment : Experiment :=
  { id := { root := "E1".data, extension := [] }, startTime := "2022".data,
    protocols := [exLiqExec 0 0, exLiqExec 3 5], resultsSet := [exResults] }

/-- The example device. -/
def exDevice : Device :=
  { id := { root := "D1".data, extension := [] }, code := "c".data,
    manufacturerModelName := "m".data, deviceSoftwareName := "s".data }

/-- The example study. -/
def exStudy : Study :=
  { studyId := "S1".data,
    report := { title := "t".data, version := "1".data, date := "d".data,
                text := "x".data } }

/-- The example trial: one device, one experiment with two liquid
additions and ten current traces at t = 0..9 s. -/
def exTrial : Trial :=
  { study := exStudy, devices := [exDevice],
    ljp := some { value := some 4, unit := "mV".data },
    liquids := [exLiquid],
    protocols := [exVoltProt, exLiqProt 0, exLiqProt 3],
    experiments := [exExperiment] }

/-- The example trial with its experiment list emptied. -/
def exTrialNoExperiments : Trial := { exTrial with experiments := [] }

/-- The empty dataset (used as a `match` fallback below). -/
def emptyDs : TedDataset :=
  { gi := [], cellProps := [], liqAdds := [], cursorsDefs := [],
    ivp := { columns := [], rows := [] }, resWide := [], files := [] }

/-- The dataset exported from the example trial in csv format. -/
def exDs : TedDataset :=
  match to_xlsx exTrial "csv".data with
  | .ok d => d
  | .error _ => emptyDs

/-- The example dataset with every waveform reference rewritten to a
`.txt` filename (an extension the importer supports in no branch). -/
def exDsTxt : TedDataset :=
  { exDs with
    liqAdds := exDs.liqAdds.map (fun la =>
      { la with SRCXFN := "CELL1.txt".data }) }

/-- The example dataset with the `CONCT` of every LiquidAdditions row set
to `CALCULATED` (a `Concentration_Type` member the `conctypes` dictionary
does not list). -/
def exDsCalculated : TedDataset :=
  { exDs with
    liqAdds := exDs.liqAdds.map (fun la =>
      { la with CONCT := "CALCULATED".data }) }

/-- The current-type results of a results set (the filter of tedutils.py
line 220). -/
def currentResults (rs : Results) : List Result :=
  rs.results.filter (fun res => res.type = .CIPA_RESULT_TYPE_CURRENT)

/-- The `la` header template of one experiment (tedutils.py lines
165-191), given the resolved liquid junction potential. -/
def expBase (exp : Experiment) (rs : Results)
    (lj : LiquidJunctionPotential) : LABase :=
  { EXPID := compositeId exp.id, CELLID := compositeId rs.cell.id,
    STIME := exp.startTime, LJP := lj.value, LJPU := lj.unit }

/-- The unsorted wide rows of one experiment (tedutils.py lines
219-236). -/
def expRows (base : LABase) (rs : Results) : List TED_ResultWide :=
  (currentResults rs).map (rwOfResult base rs)

/-- `exp_las` (tedutils.py lines 194-218): the liquid-protocol
executions, time-sorted and de-duplicated; `none` when a liquid protocol
lacks its liquid. -/
def sortedExecs (exp : Experiment) : Option (List ExecP) :=
  ((exp.protocols.filter
    (fun p => p.protocol.type = .CIPA_PROTOCOL_LIQUID)).mapM execPOf).map
    (fun eps => dedupF (sortBy execPLe eps))

/-- The per-experiment tables of the example experiment. -/
def exTables : ExpTables :=
  (experimentTables exTrial.ljp exExperiment).getD
    { cellProps := [], cursorDefs := [], liqAdds := [], resWide := [] }

/-- The processed liquid-addition executions of the example experiment. -/
def exExecs : List ExecP := (sortedExecs exExperiment).getD []

/-- The first processed execution (t = 0 s). -/
def exExecA : ExecP := (exExecs[0]?).getD
  { LIQUID := [], CONC := 0, CONCU := [], CONCT := [], TIME := 0,
    TIMEU := [], CTLFL := [], SBFL := [] }

/-- The second processed execution (t = 5 s). -/
def exExecB : ExecP := (exExecs[1]?).getD
  { LIQUID := [], CONC := 0, CONCU := [], CONCT := [], TIME := 0,
    TIMEU := [], CTLFL := [], SBFL := [] }

/-- A blank liquid-addition row, used as a `getD` fallback. -/
def blankLa : TED_LiquidAddition :=
  { EXPID := [], CELLID := [], STIME := [], LJP := none, LJPU := [],
    LIQUID := [], CONC := 0, CONCU := [], CONCT := [], FIRST := 0,
    LAST := 0, CTLFL := [], SBFL := [], ANL := [], SRCXFN := [],
    NOTES := [] }

/-- The first LiquidAdditions row of the example experiment. -/
def exLaA : TED_LiquidAddition := (exTables.liqAdds[0]?).getD blankLa

/-- The second LiquidAdditions row of the example experiment. -/
def exLaB : TED_LiquidAddition := (exTables.liqAdds[1]?).getD blankLa

/-- The example experiment with its additions replaced by a single one
at t = 5 s (traces still at t = 0..9 s). -/
def exExperimentLate : Experiment :=
  { exExperiment with protocols := [exLiqExec 3 5] }

/-- The thirteen fixed keys every wide-row dict starts with
(`TED_ResultWide.__init__`). -/
def rwBase13 : List Str :=
  ["EXPID".data, "CELLID".data, "RESTYPE".data, "LEAKMTH".data,
   "ELTIME".data, "ELTIMEU".data, "TRACENUM".data, "ANLFL".data,
   "SRCXFN".data, "LIQUID".data, "CONC".data, "CONCU".data, "CONCT".data]

/-- The fifteen fixed (non-cursor) column names a written `ResultsWide`
sheet can carry: the init keys plus the back-filled `CTLFL`/`SBFL`. -/
def rwFixedCols : List Str :=
  rwBase13 ++ ["CTLFL".data, "SBFL".data]

/-- The four dataframes of the example trial. -/
def exDfs : Dataframes :=
  (cells_cursors_liquids_results_dataframes exTrial).getD
    { cellProps := [], cursorsDefs := [], liqAdds := [], resWide := [] }

/-!
## Theorems

General-purpose lemmas are shared; each claim is settled by one theorem
(plus, where required, a witness or a counterexample).
-/

/-- `expandItem` succeeds exactly on tokens that avoid a failing `int()`,
and then computes the spec-side expansion. -/
lemma expandItem_eq (item : List Str) :
    expandItem item =
      if tokParses item then some (expandSpecTok item) else none := by
  match item with
  | [] => rfl
  | [a] => rfl
  | [a, b] =>
    simp only [expandItem, tokParses, expandSpecTok]
    cases ha : parsePyInt a <;> cases hb : parsePyInt b <;>
      simp [ha, hb]
    split <;> rfl
  | a :: b :: c :: rest => rfl

/-- Characterisation of the token fold inside `expand_numbers_list`. -/
lemma expand_fold_eq (toks : List (List Str)) (acc : List Str) :
    toks.foldlM (fun acc item => (expandItem item).map (acc ++ ·)) acc =
      if toks.all tokParses then some (acc ++ toks.flatMap expandSpecTok)
      else none := by
  induction toks generalizing acc with
  | nil => simp
  | cons item rest ih =>
    rw [List.foldlM_cons, expandItem_eq]
    by_cases hp : tokParses item
    · simp only [hp, if_true]
      change List.foldlM _ (acc ++ expandSpecTok item) rest = _
      rw [ih]
      simp [hp, List.append_assoc]
    · simp [hp]

/-- Binding an `Except.error` short-circuits. -/
lemma error_bind {ε α β : Type} (e : ε) (f : α → Except ε β) :
    (Except.error e >>= f : Except ε β) = Except.error e := rfl

/-- Membership in the keep-first de-duplication helper. -/
lemma mem_dedupFAux {α : Type} [DecidableEq α] {a : α} :
    ∀ {l seen : List α}, a ∈ dedupFAux seen l ↔ a ∈ l ∧ a ∉ seen := by
  intro l
  induction l with
  | nil => intro seen; simp [dedupFAux]
  | cons x xs ih =>
    intro seen
    by_cases hx : x ∈ seen
    · simp only [dedupFAux, if_pos hx, ih, List.mem_cons]
      constructor
      · rintro ⟨h1, h2⟩; exact ⟨Or.inr h1, h2⟩
      · rintro ⟨h1 | h1, h2⟩
        · subst h1; exact absurd hx h2
        · exact ⟨h1, h2⟩
    · simp only [dedupFAux, if_neg hx, List.mem_cons, ih]
      constructor
      · rintro (rfl | ⟨h1, h2⟩)
        · exact ⟨Or.inl rfl, hx⟩
        · exact ⟨Or.inr h1, fun hc => h2 (Or.inr hc)⟩
      · rintro ⟨rfl | h1, h2⟩
        · exact Or.inl rfl
        · by_cases hax : a = x
          · exact Or.inl hax
          · exact Or.inr ⟨h1, by simp [hax, h2]⟩

/-- `dedupF` keeps exactly the members of its input. -/
lemma mem_dedupF {α : Type} [DecidableEq α] {a : α} {l : List α} :
    a ∈ dedupF l ↔ a ∈ l := by
  simp [dedupF, mem_dedupFAux]

/-- An `Option`-valued `mapM` succeeds iff it succeeds element-wise. -/
lemma mapM_option_isSome {α β : Type} (f : α → Option β) :
    ∀ (l : List α), (l.mapM f).isSome ↔ ∀ a ∈ l, (f a).isSome := by
  intro l
  induction l with
  | nil => simp only [List.mapM_nil]; simp
  | cons x xs ih =>
    simp only [List.mapM_cons, List.mem_cons]
    cases hx : f x <;> cases hxs : xs.mapM f <;>
      simp_all [Option.isSome, Option.bind]

/-- `lpOfKey` fails exactly on an unmapped concentration type, provided
the liquid merge succeeds. -/
lemma lpOfKey_none_iff (liquids : List Liquid) (idx : ℕ) (k : LPKey)
    (hliq : ∃ l ∈ liquids, l.name = k.LIQUID) :
    lpOfKey liquids idx k = none ↔ conctypes (upperStr k.CONCT) = none := by
  obtain ⟨l, hl, hname⟩ := hliq
  have hfind : (liquids.find? (fun l => l.name = k.LIQUID)).isSome := by
    rw [List.find?_isSome]
    exact ⟨l, hl, by simp [hname]⟩
  obtain ⟨l0, hl0⟩ := Option.isSome_iff_exists.mp hfind
  simp only [lpOfKey, hl0, Option.bind_eq_bind, Option.some_bind]
  cases hc : conctypes (upperStr k.CONCT) <;> simp [hc]

/-- The names of the reconstructed liquids are exactly the de-duplicated
LIQUID column. -/
lemma importLiquids_names (la : List TED_LiquidAddition) :
    (importLiquids la).map (fun l => l.name) = dedupF (la.map (·.LIQUID)) := by
  simp only [importLiquids, List.map_map]
  have : ((fun l : Liquid => l.name) ∘ fun ia : ℕ × Str =>
      ({ id := { root := "L-".data ++ natChars ia.1, extension := [] },
         name := ia.2 } : Liquid)) = Prod.snd := by
    funext ia
    rfl
  rw [this, List.enum_map_snd]

/-- Every LiquidAdditions row's liquid name is reconstructed. -/
lemma importLiquids_has_name (la : List TED_LiquidAddition)
    (r : TED_LiquidAddition) (hr : r ∈ la) :
    ∃ l ∈ importLiquids la, l.name = r.LIQUID := by
  have h1 : r.LIQUID ∈ (importLiquids la).map (fun l => l.name) := by
    rw [importLiquids_names, mem_dedupF]
    exact List.mem_map_of_mem _ hr
  obtain ⟨l, hl, hname⟩ := List.mem_map.mp h1
  exact ⟨l, hl, hname⟩

/-- `liquid_ps` construction fails exactly when some row's `CONCT` is
unmapped by the `conctypes` dictionary. -/
lemma importLiquidPs_none_iff (la : List TED_LiquidAddition) :
    importLiquidPs (importLiquids la) la = none ↔
      ∃ r ∈ la, conctypes (upperStr r.CONCT) = none := by
  rw [← Option.not_isSome_iff_eq_none]
  unfold importLiquidPs
  rw [mapM_option_isSome]
  have hmem : ∀ ik : ℕ × LPKey,
      ik ∈ (dedupF (la.map lpKeyOf)).enum →
      ∃ l ∈ importLiquids la, l.name = ik.2.LIQUID := by
    intro ik hik
    have h2 : ik.2 ∈ (dedupF (la.map lpKeyOf)).enum.map Prod.snd :=
      List.mem_map_of_mem _ hik
    rw [List.enum_map_snd, mem_dedupF] at h2
    obtain ⟨r, hr, hk⟩ := List.mem_map.mp h2
    obtain ⟨l, hl, hn⟩ := importLiquids_has_name la r hr
    refine ⟨l, hl, ?_⟩
    rw [hn, ← hk]
    rfl
  constructor
  · intro h
    rw [not_forall] at h
    obtain ⟨ik, hik⟩ := h
    rw [not_forall] at hik
    obtain ⟨hmemik, hbad⟩ := hik
    have : lpOfKey (importLiquids la) ik.1 ik.2 = none := by
      by_contra hc
      rw [← ne_eq, Option.ne_none_iff_isSome] at hc
      apply hbad
      simp [Option.isSome_map, hc]
    rw [lpOfKey_none_iff _ _ _ (hmem ik hmemik)] at this
    have h2 : ik.2 ∈ (dedupF (la.map lpKeyOf)).enum.map Prod.snd :=
      List.mem_map_of_mem _ hmemik
    rw [List.enum_map_snd, mem_dedupF] at h2
    obtain ⟨r, hr, hk⟩ := List.mem_map.mp h2
    refine ⟨r, hr, ?_⟩
    have hcc : (lpKeyOf r).CONCT = r.CONCT := rfl
    rw [← hcc, hk]
    exact ‹conctypes (upperStr ik.2.CONCT) = none›
  · rintro ⟨r, hr, hbad⟩ hall
    have hkmem : lpKeyOf r ∈ dedupF (la.map lpKeyOf) := by
      rw [mem_dedupF]
      exact List.mem_map_of_mem _ hr
    obtain ⟨i, hi⟩ := List.mem_iff_get.mp hkmem
    have hikmem : (i.1, lpKeyOf r) ∈ (dedupF (la.map lpKeyOf)).enum := by
      rw [List.mem_enum_iff_getElem?]
      rw [List.getElem?_eq_getElem i.2]
      simp [← hi]
    have h3 := hall _ hikmem
    have hnone : lpOfKey (importLiquids la) i.1 (lpKeyOf r) = none := by
      rw [lpOfKey_none_iff _ _ _ (hmem _ hikmem)]
      exact hbad
    simp only [hnone, Option.map_none, Option.isSome_none] at h3
    exact Bool.false_ne_true h3

/-- C8 (counterexample): on the input `"1-x;5"` the malformed range token
`1-x` is not logged-and-skipped: the `int()` conversion raises an
uncaught `ValueError` (modelled by `none`) and the call aborts instead of
returning the expansion `["5"]` of the remaining tokens. -/
theorem expand_numbers_list_abort_on_malformed :
    expand_numbers_list (some "1-x;5".data) = none ∧
    expand_numbers_list (some "1-x;5".data) ≠ some ["5".data] := by decide

/-- C8 (amended): `expand_numbers_list` yields `[]` on `None` or
all-space input; otherwise, when every two-part token has two
`int()`-parseable parts, each range `a-b` with `a ≤ b` expands to
`a..b`, each one-part token is kept, and every other malformed token
(`a > b`, or three or more parts) is logged and skipped; but a two-part
token with a part `int()` cannot parse aborts the whole call with an
uncaught `ValueError` (`none`). -/
theorem expand_numbers_list_characterization :
    expand_numbers_list none = some [] ∧
    ∀ s : Str,
      expand_numbers_list (some s) =
        if eraseAllChar ' ' s = [] then some []
        else if ((splitOnChar ';' s).map (splitOnChar '-')).all tokParses
        then some ((((splitOnChar ';' s).map (splitOnChar '-'))).flatMap
          expandSpecTok)
        else none := by
  refine ⟨rfl, fun s => ?_⟩
  by_cases hb : eraseAllChar ' ' s = []
  · simp [expand_numbers_list, hb]
  · simp only [expand_numbers_list, hb, ne_eq, not_false_iff, if_true,
      if_false, expand_fold_eq, List.nil_append]

/-- C6 (code evaluation): the time-axis normalisation scales seconds by
1e3 and microseconds by 1e-3, keeps milliseconds, and keeps an
unrecognised unit with step ≥ 0.001 as milliseconds — but in the
heuristic branch (unrecognised unit, inferred step < 0.001, declared
"likely in seconds" by the source's own comment) it multiplies the start
time by 1e-3 instead of 1e3, while the step is multiplied by 1e3. -/
theorem normalizeTime_heuristic_divergence :
    normalizeTime "s".data (some 2) (some 3) = (some 2000, some 3000) ∧
    normalizeTime "ms".data (some 2) (some 3) = (some 2, some 3) ∧
    normalizeTime "us".data (some 2) (some 3) =
      (some (1 / 500), some (3 / 1000)) ∧
    normalizeTime "xyz".data (some 2) (some 3) = (some 2, some 3) ∧
    normalizeTime "xyz".data (some 2) (some (1 / 2000)) =
      (some (1 / 500), some (1 / 2)) ∧
    (1 / 500 : ℚ) ≠ 2 * 1000 := by decide

/-- C5 (counterexample): importing a dataset whose waveform reference has
the unsupported extension `.txt` does not signal a `ParseFileError`: the
importer prints `Unsupported format`, leaves the waveform data unloaded,
and the subsequent column access on `None` raises an `AttributeError`. -/
theorem from_xlsx_unsupported_extension_counterexample :
    from_xlsx exDsTxt = .error .attributeError := by decide

/-- C5 (amended): for a waveform-file reference whose extension is
neither the delimited-text kind (`.csv`, possibly zip-contained) nor the
spreadsheet kind (`.xlsx`), the importer's extension dispatch signals no
error at all — in particular no `ParseFileError`; it prints an
`Unsupported format` message and keeps the previously loaded data. -/
theorem loadWaveformFile_unsupported_extension (files : List TedFile)
    (fname : Str)
    (hcsv : lowerStr (takeLastN 4 fname) ≠ ".csv".data)
    (hxlsx : lowerStr (takeLastN 5 fname) ≠ ".xlsx".data) :
    loadWaveformFile files fname = .unsupportedKept := by
  unfold loadWaveformFile
  rw [if_neg hcsv, if_neg hxlsx]

/-- Witness for the amended C5 theorem at the concrete reference
`CELL1.txt`. -/
theorem loadWaveformFile_unsupported_extension_witness :
    lowerStr (takeLastN 4 "CELL1.txt".data) ≠ ".csv".data ∧
    lowerStr (takeLastN 5 "CELL1.txt".data) ≠ ".xlsx".data ∧
    loadWaveformFile [] "CELL1.txt".data = .unsupportedKept :=
  ⟨by decide, by decide,
    loadWaveformFile_unsupported_extension [] "CELL1.txt".data
      (by decide) (by decide)⟩

/-- C9 (counterexample): exporting the example trial with its experiment
list emptied (devices non-empty, study present) raises instead of
producing a workbook with empty tables: the builder fails sorting the
empty LiquidAdditions frame. -/
theorem to_xlsx_empty_experiments_counterexample :
    to_xlsx exTrialNoExperiments "csv".data = .error .pyerr := by decide

/-- C9 (amended): for every trial with an empty experiment list and every
`edformat`, `to_xlsx` raises (the projection builder's `sort_values` on
the empty, column-less LiquidAdditions frame — or an earlier failure —
propagates as an uncaught error); no workbook is produced. -/
theorem to_xlsx_empty_experiments (trial : Trial) (fmt : Str)
    (h : trial.experiments = []) :
    to_xlsx trial fmt = .error .pyerr := by
  have hdfs : cells_cursors_liquids_results_dataframes trial = none := by
    unfold cells_cursors_liquids_results_dataframes
    rw [h]
    rfl
  unfold to_xlsx
  cases hg : giRows trial with
  | none => rfl
  | some gi =>
    cases hv : voltage_command_dataframe trial with
    | none => rfl
    | some ivp =>
      rw [hdfs]
      rfl

/-- Witness for the amended C9 theorem on the concrete example trial. -/
theorem to_xlsx_empty_experiments_witness :
    exTrialNoExperiments.experiments = [] ∧
    to_xlsx exTrialNoExperiments "xlsx".data = .error .pyerr :=
  ⟨by decide,
    to_xlsx_empty_experiments exTrialNoExperiments "xlsx".data (by decide)⟩

/-- C4: provided the earlier stages of `to_xlsx` (general information,
voltage-command frame, projection builder) succeed on the trial, the
export raises an `EncapsulatedDataFileError` carrying the requested
format string exactly when `edformat` is none of `csv`, `zip`,
`xlsx`. -/
theorem to_xlsx_edformat_error_iff (trial : Trial) (fmt : Str)
    (hgi : (giRows trial).isSome)
    (hivp : (voltage_command_dataframe trial).isSome)
    (hdfs : (cells_cursors_liquids_results_dataframes trial).isSome) :
    (∃ msg, to_xlsx trial fmt =
        .error (.encapsulatedDataFileError fmt msg)) ↔
      ¬(fmt = "csv".data ∨ fmt = "zip".data ∨ fmt = "xlsx".data) := by
  obtain ⟨gi, hg⟩ := Option.isSome_iff_exists.mp hgi
  obtain ⟨ivp, hv⟩ := Option.isSome_iff_exists.mp hivp
  obtain ⟨dfs, hd⟩ := Option.isSome_iff_exists.mp hdfs
  by_cases hfmt : fmt = "csv".data ∨ fmt = "zip".data ∨ fmt = "xlsx".data
  · simp only [hfmt, not_true, iff_false, not_exists]
    intro msg hcon
    cases hsteps : trial.experiments.mapM (fileForExperiment fmt) with
    | none =>
      have : to_xlsx trial fmt = .error .pyerr := by
        simp only [to_xlsx, hg, hv, hd, hsteps, if_pos hfmt, pure_bind,
          error_bind]
      rw [this] at hcon
      exact absurd hcon (by simp)
    | some steps =>
      have : to_xlsx trial fmt = .ok
          { gi := gi, cellProps := dfs.cellProps,
            liqAdds := steps.foldl
              (fun la_df st => setSrcxfn la_df st.1 st.2.1 st.2.2.2)
              dfs.liqAdds,
            cursorsDefs := dfs.cursorsDefs, ivp := ivp,
            resWide := dfs.resWide,
            files := steps.map (fun st => st.2.2.1) } := by
        simp only [to_xlsx, hg, hv, hd, hsteps, if_pos hfmt, pure_bind]
        rfl
      rw [this] at hcon
      exact absurd hcon (by simp)
  · simp only [hfmt, iff_true, not_false_iff]
    refine ⟨"Unsopported file format for encapsulated data".data, ?_⟩
    simp only [to_xlsx, hg, hv, hd, if_neg hfmt, pure_bind]

/-- Witness for C4: the example trial satisfies the stage hypotheses, and
requesting the unsupported format `tsv` signals the error naming it. -/
theorem to_xlsx_edformat_error_iff_witness :
    (giRows exTrial).isSome ∧ (voltage_command_dataframe exTrial).isSome ∧
    (cells_cursors_liquids_results_dataframes exTrial).isSome ∧
    ((∃ msg, to_xlsx exTrial "tsv".data =
        .error (.encapsulatedDataFileError "tsv".data msg)) ↔
      ¬("tsv".data = "csv".data ∨ "tsv".data = "zip".data ∨
        "tsv".data = "xlsx".data)) :=
  ⟨by decide, by decide, by decide,
    to_xlsx_edformat_error_iff exTrial "tsv".data (by decide) (by decide)
      (by decide)⟩

/-- C10: the `conctypes` dictionary maps (the upper-cased) `CONCT` only
for `NOMINAL` and `MEASURED`; and for every dataset whose earlier import
stages succeed, a LiquidAdditions row whose `CONCT` is any other value
makes `from_xlsx` raise an unhandled `KeyError` instead of constructing
the Trial. -/
theorem from_xlsx_unmapped_conct_keyerror :
    (∀ s : Str, (conctypes (upperStr s)).isSome ↔
      (upperStr s = "NOMINAL".data ∨ upperStr s = "MEASURED".data)) ∧
    ∀ ds : TedDataset,
      (∀ k ∈ ["STUDYID", "REPORT_TITLE", "REPORT_VERSION", "REPORT_DATE",
        "REPORT_DESCRIPTION", "DEVICE_ID", "DEVICE_CODE", "DEVICE_MODEL",
        "DEVICE_SOFTWARE"], (giValue ds.gi (String.data k)).isSome) →
      ds.liqAdds ≠ [] →
      (importVcwf ds.ivp).isSome →
      (∃ r ∈ ds.liqAdds, upperStr r.CONCT ≠ "NOMINAL".data ∧
        upperStr r.CONCT ≠ "MEASURED".data) →
      from_xlsx ds = .error .keyError := by
  constructor
  · intro s
    unfold conctypes
    by_cases h1 : upperStr s = "NOMINAL".data
    · simp [h1]
    · by_cases h2 : upperStr s = "MEASURED".data <;> simp [h1, h2]
  intro ds hgi hla hvc hbad
  obtain ⟨r, hr, hb1, hb2⟩ := hbad
  have hbadc : conctypes (upperStr r.CONCT) = none := by
    unfold conctypes
    rw [if_neg hb1, if_neg hb2]
  have need_eq : ∀ k : String, (giValue ds.gi k.data).isSome →
      ∃ v, giNeed ds.gi k = pure v := by
    intro k hk
    obtain ⟨v, hv⟩ := Option.isSome_iff_exists.mp hk
    exact ⟨v, by simp [giNeed, hv]⟩
  obtain ⟨v1, e1⟩ := need_eq _ (hgi "STUDYID" (by simp))
  obtain ⟨v2, e2⟩ := need_eq _ (hgi "REPORT_TITLE" (by simp))
  obtain ⟨v3, e3⟩ := need_eq _ (hgi "REPORT_VERSION" (by simp))
  obtain ⟨v4, e4⟩ := need_eq _ (hgi "REPORT_DATE" (by simp))
  obtain ⟨v5, e5⟩ := need_eq _ (hgi "REPORT_DESCRIPTION" (by simp))
  obtain ⟨v6, e6⟩ := need_eq _ (hgi "DEVICE_ID" (by simp))
  obtain ⟨v7, e7⟩ := need_eq _ (hgi "DEVICE_CODE" (by simp))
  obtain ⟨v8, e8⟩ := need_eq _ (hgi "DEVICE_MODEL" (by simp))
  obtain ⟨v9, e9⟩ := need_eq _ (hgi "DEVICE_SOFTWARE" (by simp))
  have hlaC : (ds.liqAdds.map (fun r =>
      { r with CTLFL := cleanFlag r.CTLFL,
               SBFL := cleanFlag r.SBFL })) ≠ [] := by
    simpa using hla
  obtain ⟨la0, hla0⟩ : ∃ x, (ds.liqAdds.map (fun r =>
      { r with CTLFL := cleanFlag r.CTLFL,
               SBFL := cleanFlag r.SBFL })).head? = some x := by
    cases hm : (ds.liqAdds.map (fun r =>
        { r with CTLFL := cleanFlag r.CTLFL,
                 SBFL := cleanFlag r.SBFL })).head? with
    | none => exact absurd (List.head?_eq_none_iff.mp hm) hlaC
    | some x => exact ⟨x, rfl⟩
  obtain ⟨w, hw⟩ := Option.isSome_iff_exists.mp hvc
  have hlps : importLiquidPs
      (importLiquids (ds.liqAdds.map (fun r =>
        { r with CTLFL := cleanFlag r.CTLFL, SBFL := cleanFlag r.SBFL })))
      (ds.liqAdds.map (fun r =>
        { r with CTLFL := cleanFlag r.CTLFL, SBFL := cleanFlag r.SBFL }))
      = none := by
    rw [importLiquidPs_none_iff]
    exact ⟨_, List.mem_map_of_mem _ hr, hbadc⟩
  simp only [from_xlsx, e1, e2, e3, e4, e5, e6, e7, e8, e9, pure_bind,
    hla0, hw, hlps, error_bind]

/-- Witness for C10: the example dataset with `CONCT` rewritten to
`CALCULATED` satisfies the hypotheses, and its import raises the
`KeyError`. -/
theorem from_xlsx_unmapped_conct_keyerror_witness :
    (∃ r ∈ exDsCalculated.liqAdds, upperStr r.CONCT ≠ "NOMINAL".data ∧
      upperStr r.CONCT ≠ "MEASURED".data) ∧
    from_xlsx exDsCalculated = .error .keyError :=
  ⟨by decide,
    from_xlsx_unmapped_conct_keyerror.2 exDsCalculated (by decide)
      (by decide) (by decide) (by decide)⟩

lemma insertLe_of_le {α : Type} (le : α → α → Bool) (x : α) (l : List α)
    (h : ∀ y ∈ l.head?, le x y) : insertLe le x l = x :: l := by
  cases l with
  | nil => rfl
  | cons y ys =>
    have : le x y := h y rfl
    simp [insertLe, this]

lemma sortBy_eq_self {α : Type} (le : α → α → Bool) :
    ∀ (l : List α), l.Pairwise (fun a b => le a b) → sortBy le l = l := by
  intro l
  induction l with
  | nil => intro _; rfl
  | cons x xs ih =>
    intro h
    rw [List.pairwise_cons] at h
    have hs : sortBy le (x :: xs) = insertLe le x (sortBy le xs) := rfl
    rw [hs, ih h.2]
    apply insertLe_of_le
    intro y hy
    cases xs with
    | nil => simp at hy
    | cons z zs =>
      simp only [List.head?_cons, Option.mem_def, Option.some.injEq] at hy
      subst hy
      exact h.1 _ (List.mem_cons_self _ _)

lemma dedupFAux_eq_self {α : Type} [DecidableEq α] :
    ∀ (l seen : List α), l.Nodup → (∀ a ∈ l, a ∉ seen) →
      dedupFAux seen l = l := by
  intro l
  induction l with
  | nil => intro seen _ _; rfl
  | cons x xs ih =>
    intro seen hnd hdisj
    rw [List.nodup_cons] at hnd
    have hx : x ∉ seen := hdisj x (List.mem_cons_self _ _)
    simp only [dedupFAux, if_neg hx]
    rw [ih (x :: seen) hnd.2]
    intro a ha
    simp only [List.mem_cons]
    rintro (rfl | hmem)
    · exact hnd.1 ha
    · exact hdisj a (List.mem_cons_of_mem _ ha) hmem

lemma dedupF_eq_self {α : Type} [DecidableEq α] (l : List α)
    (h : l.Nodup) : dedupF l = l :=
  dedupFAux_eq_self l [] h (by simp)



lemma rangesLoop_cons (tmp : List TED_ResultWide) (base : LABase)
    (e : ExecP) (rest : List ExecP) (acc : List TED_LiquidAddition) :
    rangesLoop tmp base (e :: rest) acc =
      match rowAtOrAfter tmp e.TIME with
      | none => none
      | some rf =>
        match acc with
        | [] => rangesLoop tmp base rest [laOfExec base e rf.TRACENUM]
        | prev :: acc2 =>
          match rowBefore tmp e.TIME with
          | none => none
          | some rl =>
            rangesLoop tmp base rest
              (laOfExec base e rf.TRACENUM ::
                { prev with LAST := rl.TRACENUM } :: acc2) := rfl

lemma rangesChain_cons2 (tmp : List TED_ResultWide) (base : LABase)
    (e e2 : ExecP) (rest : List ExecP) :
    rangesChain tmp base (e :: e2 :: rest) =
      (rowAtOrAfter tmp e.TIME).bind fun rf =>
        (rowBefore tmp e2.TIME).bind fun rl =>
          (rangesChain tmp base (e2 :: rest)).bind fun r =>
            some ({ laOfExec base e rf.TRACENUM with
              LAST := rl.TRACENUM } :: r) := rfl

lemma rangesLoop_acc (tmp : List TED_ResultWide) (base : LABase) :
    ∀ (adds : List ExecP) (p : TED_LiquidAddition)
      (acc2 : List TED_LiquidAddition),
      rangesLoop tmp base adds (p :: acc2) =
        match adds with
        | [] => some (p :: acc2)
        | e :: _ =>
          (rowBefore tmp e.TIME).bind fun rl =>
            (rangesChain tmp base adds).map fun c =>
              c.reverse ++ ({ p with LAST := rl.TRACENUM } :: acc2) := by
  intro adds
  induction adds with
  | nil => intro p acc2; rfl
  | cons e rest ih =>
    intro p acc2
    rw [rangesLoop_cons]
    cases hrf : rowAtOrAfter tmp e.TIME with
    | none =>
      cases hrl : rowBefore tmp e.TIME with
      | none =>
        cases rest with
        | nil => simp [rangesChain, hrf, hrl]
        | cons e2 rest2 => simp [rangesChain_cons2, hrf, hrl]
      | some rl =>
        cases rest with
        | nil => simp [rangesChain, hrf, hrl]
        | cons e2 rest2 => simp [rangesChain_cons2, hrf, hrl]
    | some rf =>
      cases hrl : rowBefore tmp e.TIME with
      | none =>
        cases rest with
        | nil => simp [rangesChain, hrf, hrl]
        | cons e2 rest2 => simp [rangesChain_cons2, hrf, hrl]
      | some rl =>
        cases rest with
        | nil =>
          simp [rangesLoop, rangesChain, hrf, hrl]
        | cons e2 rest2 =>
          simp only [hrf, hrl]
          rw [ih]
          rw [rangesChain_cons2]
          simp only [hrf, hrl, Option.some_bind]
          cases hrl2 : rowBefore tmp e2.TIME with
          | none => simp
          | some rl2 =>
            cases hc : rangesChain tmp base (e2 :: rest2) with
            | none => simp
            | some c => simp

lemma rangesLoop_nil_acc (tmp : List TED_ResultWide) (base : LABase)
    (adds : List ExecP) :
    rangesLoop tmp base adds [] =
      (rangesChain tmp base adds).map List.reverse := by
  cases adds with
  | nil => rfl
  | cons e rest =>
    rw [rangesLoop_cons]
    cases hrf : rowAtOrAfter tmp e.TIME with
    | none =>
      cases rest with
      | nil => simp [rangesChain, hrf]
      | cons e2 rest2 => simp [rangesChain_cons2, hrf]
    | some rf =>
      cases rest with
      | nil => simp [rangesLoop, rangesChain, hrf]
      | cons e2 rest2 =>
        dsimp only
        rw [rangesLoop_acc]
        rw [rangesChain_cons2]
        simp only [hrf, Option.some_bind]
        cases hrl2 : rowBefore tmp e2.TIME with
        | none => simp
        | some rl2 =>
          cases hc : rangesChain tmp base (e2 :: rest2) with
          | none => simp
          | some c => simp

lemma setFinalLAST_concat (n : ℤ) :
    ∀ (c : List TED_LiquidAddition) (la : TED_LiquidAddition),
      setFinalLAST n (c ++ [la]) = c ++ [{ la with LAST := n }] := by
  intro c
  induction c with
  | nil => intro la; rfl
  | cons x xs ih =>
    intro la
    cases xs with
    | nil => simp [setFinalLAST]
    | cons y ys =>
      have h1 : ((x :: y :: ys) ++ [la]) = x :: ((y :: ys) ++ [la]) := rfl
      rw [h1]
      have h2 : setFinalLAST n (x :: ((y :: ys) ++ [la])) =
          x :: setFinalLAST n ((y :: ys) ++ [la]) := rfl
      rw [h2, ih]
      rfl

lemma expLiqAdds_eq_chain (tmp : List TED_ResultWide) (base : LABase)
    (adds : List ExecP) :
    expLiqAdds tmp base adds =
      (rangesChain tmp base adds).bind fun c =>
        if c = [] then none
        else (tmp.getLast?).map fun rl => setFinalLAST rl.TRACENUM c := by
  unfold expLiqAdds
  rw [rangesLoop_nil_acc]
  cases hc : rangesChain tmp base adds with
  | none => rfl
  | some c =>
    simp only [Option.map_some, Option.some_bind]
    rcases List.eq_nil_or_concat c with rfl | ⟨c2, la, rfl⟩
    · simp
    · simp only [List.concat_eq_append]
      have hmap : Option.map List.reverse (some (c2 ++ [la])) =
          some (la :: c2.reverse) := by simp
      rw [hmap]
      have hne : ¬(c2 ++ [la] = []) := by simp
      rw [if_neg hne]
      cases hg : tmp.getLast? with
      | none => rfl
      | some rl =>
        dsimp only
        have hm2 : Option.map
            (fun rl : TED_ResultWide => setFinalLAST rl.TRACENUM (c2 ++ [la]))
            (some rl) = some (setFinalLAST rl.TRACENUM (c2 ++ [la])) := rfl
        rw [hm2, setFinalLAST_concat]
        simp

lemma rangesChain_length (tmp : List TED_ResultWide) (base : LABase) :
    ∀ (adds : List ExecP) (ch : List TED_LiquidAddition),
      rangesChain tmp base adds = some ch → ch.length = adds.length := by
  intro adds
  induction adds with
  | nil => intro ch hc; cases hc; rfl
  | cons e rest ih =>
    intro ch hc
    cases rest with
    | nil =>
      simp only [rangesChain] at hc
      cases hrf : rowAtOrAfter tmp e.TIME with
      | none => rw [hrf] at hc; cases hc
      | some rf =>
        rw [hrf] at hc
        cases hc
        rfl
    | cons e2 rest2 =>
      rw [rangesChain_cons2] at hc
      cases hrf : rowAtOrAfter tmp e.TIME with
      | none => rw [hrf] at hc; cases hc
      | some rf =>
        rw [hrf] at hc
        cases hrl : rowBefore tmp e2.TIME with
        | none => rw [hrl] at hc; cases hc
        | some rl =>
          rw [hrl] at hc
          cases hrc : rangesChain tmp base (e2 :: rest2) with
          | none => rw [hrc] at hc; cases hc
          | some c2 =>
            rw [hrc] at hc
            cases hc
            simp [ih c2 hrc]

lemma rangesChain_spec (tmp : List TED_ResultWide) (base : LABase) :
    ∀ (adds : List ExecP) (ch : List TED_LiquidAddition),
      rangesChain tmp base adds = some ch →
      ∀ (i : ℕ) (e : ExecP) (la : TED_LiquidAddition),
        adds[i]? = some e → ch[i]? = some la →
        ∃ rf, rowAtOrAfter tmp e.TIME = some rf ∧
          la = { laOfExec base e rf.TRACENUM with LAST := la.LAST } ∧
          (∀ e2, adds[i + 1]? = some e2 →
            ∃ rl, rowBefore tmp e2.TIME = some rl ∧
              la.LAST = rl.TRACENUM) ∧
          (adds[i + 1]? = none → la.LAST = 0) := by
  intro adds
  induction adds with
  | nil => intro ch hc i e la he; cases he
  | cons e0 rest ih =>
    intro ch hc i e la he hla
    cases rest with
    | nil =>
      simp only [rangesChain] at hc
      cases hrf : rowAtOrAfter tmp e0.TIME with
      | none => rw [hrf] at hc; cases hc
      | some rf =>
        rw [hrf] at hc
        cases hc
        cases i with
        | zero =>
          simp only [List.getElem?_cons_zero, Option.some.injEq] at he hla
          subst he
          subst hla
          refine ⟨rf, hrf, rfl, ?_, fun _ => rfl⟩
          intro e2 h2
          simp at h2
        | succ j =>
          simp only [List.getElem?_cons_succ] at hla
          cases hla
    | cons e2 rest2 =>
      rw [rangesChain_cons2] at hc
      cases hrf : rowAtOrAfter tmp e0.TIME with
      | none => rw [hrf] at hc; cases hc
      | some rf =>
        rw [hrf] at hc
        cases hrl : rowBefore tmp e2.TIME with
        | none => rw [hrl] at hc; cases hc
        | some rl =>
          rw [hrl] at hc
          cases hrc : rangesChain tmp base (e2 :: rest2) with
          | none => rw [hrc] at hc; cases hc
          | some ctail =>
            rw [hrc] at hc
            cases hc
            cases i with
            | zero =>
              simp only [List.getElem?_cons_zero, Option.some.injEq] at he hla
              subst he
              subst hla
              refine ⟨rf, hrf, rfl, ?_, ?_⟩
              · intro x hx
                simp only [List.getElem?_cons_succ,
                  List.getElem?_cons_zero, Option.some.injEq] at hx
                subst hx
                exact ⟨rl, hrl, rfl⟩
              · intro hx
                simp at hx
            | succ j =>
              simp only [List.getElem?_cons_succ] at he hla
              have hx := ih ctail hrc j e la he hla
              simp only [List.getElem?_cons_succ] at hx ⊢
              exact hx

lemma setFinalLAST_getElem (n : ℤ) :
    ∀ (l : List TED_LiquidAddition) (i : ℕ),
      (setFinalLAST n l)[i]? =
        if i + 1 = l.length then
          (l[i]?).map (fun la => { la with LAST := n })
        else l[i]? := by
  intro l
  induction l with
  | nil => intro i; simp [setFinalLAST]
  | cons la rest ih =>
    intro i
    cases rest with
    | nil =>
      cases i with
      | zero => rfl
      | succ j => simp [setFinalLAST]
    | cons b t =>
      have hsf : setFinalLAST n (la :: b :: t) =
          la :: setFinalLAST n (b :: t) := rfl
      rw [hsf]
      cases i with
      | zero =>
        simp only [List.getElem?_cons_zero, List.length_cons]
        rw [if_neg (by omega)]
      | succ j =>
        simp only [List.getElem?_cons_succ, List.length_cons]
        rw [ih j]
        simp only [List.length_cons]
        by_cases hj : j + 1 = t.length + 1
        · rw [if_pos hj, if_pos (by omega)]
        · rw [if_neg hj, if_neg (by omega)]

lemma experimentTables_some (tljp : Option LiquidJunctionPotential)
    (exp : Experiment) (tables : ExpTables)
    (h : experimentTables tljp exp = some tables) :
    ∃ rs lj eps las0,
      exp.resultsSet.head? = some rs ∧
      resolveLjp tljp rs = some lj ∧
      (exp.protocols.filter
        (fun p => p.protocol.type = .CIPA_PROTOCOL_LIQUID)).mapM execPOf
        = some eps ∧
      eps ≠ [] ∧ expRows (expBase exp rs lj) rs ≠ [] ∧
      expLiqAdds (sortBy rwKeyLe (expRows (expBase exp rs lj) rs))
        (expBase exp rs lj) (dedupF (sortBy execPLe eps)) = some las0 ∧
      tables.liqAdds =
        populateLiqAdds (sortBy rwKeyLe (expRows (expBase exp rs lj) rs))
          las0 ∧
      tables.resWide =
        backfill (expRows (expBase exp rs lj) rs)
          (populateLiqAdds
            (sortBy rwKeyLe (expRows (expBase exp rs lj) rs)) las0) := by
  cases hrs : exp.resultsSet.head? with
  | none =>
    simp only [experimentTables, Option.bind_eq_bind, hrs,
      Option.none_bind] at h
    exact Option.noConfusion h
  | some rs =>
    cases hlj : resolveLjp tljp rs with
    | none =>
      simp only [experimentTables, Option.bind_eq_bind, hrs, hlj,
        Option.some_bind, Option.none_bind, Option.pure_def] at h
      exact Option.noConfusion h
    | some lj =>
      cases hm : (exp.protocols.filter
          (fun p => p.protocol.type = .CIPA_PROTOCOL_LIQUID)).mapM execPOf
          with
      | none =>
        simp only [experimentTables, Option.bind_eq_bind, hrs, hlj, hm,
          Option.some_bind, Option.none_bind, Option.pure_def] at h
        exact Option.noConfusion h
      | some eps =>
        simp only [experimentTables, Option.bind_eq_bind, hrs, hlj, hm,
          Option.some_bind, Option.none_bind, Option.pure_def] at h
        by_cases heps : eps = []
        · rw [if_pos heps] at h
          exact Option.noConfusion h
        · rw [if_neg heps] at h
          by_cases hrows : ((rs.results.filter (fun res => res.type = .CIPA_RESULT_TYPE_CURRENT)).map (rwOfResult { EXPID := compositeId exp.id, CELLID := compositeId rs.cell.id, STIME := exp.startTime, LJP := lj.value, LJPU := lj.unit } rs)) = ([] : List TED_ResultWide)
          · rw [if_pos hrows] at h
            exact Option.noConfusion h
          · rw [if_neg hrows] at h
            cases hlas : expLiqAdds (sortBy rwKeyLe ((rs.results.filter (fun res => res.type = .CIPA_RESULT_TYPE_CURRENT)).map (rwOfResult { EXPID := compositeId exp.id, CELLID := compositeId rs.cell.id, STIME := exp.startTime, LJP := lj.value, LJPU := lj.unit } rs))) { EXPID := compositeId exp.id, CELLID := compositeId rs.cell.id, STIME := exp.startTime, LJP := lj.value, LJPU := lj.unit } (dedupF (sortBy execPLe eps)) with
            | none =>
              rw [hlas] at h
              exact Option.noConfusion h
            | some las0 =>
              rw [hlas] at h
              simp only [Option.some_bind, Option.some.injEq] at h
              subst h
              exact ⟨rs, lj, eps, las0, rfl, hlj, rfl, heps, hrows, hlas,
                rfl, rfl⟩

lemma getElem?_some_lt {α : Type} {l : List α} {i : ℕ} {a : α}
    (h : l[i]? = some a) : i < l.length := by
  by_contra hle
  push_neg at hle
  rw [List.getElem?_eq_none hle] at h
  cases h

lemma getElem?_none_le {α : Type} {l : List α} {i : ℕ}
    (h : l[i]? = none) : l.length ≤ i := by
  by_contra hlt
  push_neg at hlt
  rw [List.getElem?_eq_getElem hlt] at h
  cases h

lemma head?_pairwise_min {α : Type} {R : α → α → Prop} {l : List α}
    {a : α} (hp : l.Pairwise R) (ha : l.head? = some a) :
    a ∈ l ∧ ∀ b ∈ l, b = a ∨ R a b := by
  cases l with
  | nil => cases ha
  | cons x xs =>
    simp only [List.head?_cons, Option.some.injEq] at ha
    subst ha
    refine ⟨List.mem_cons_self _ _, ?_⟩
    intro b hb
    rcases List.mem_cons.mp hb with rfl | hb2
    · exact Or.inl rfl
    · exact Or.inr (List.rel_of_pairwise_cons hp hb2)

lemma getLast?_pairwise_max {α : Type} {R : α → α → Prop} {l : List α}
    {a : α} (hp : l.Pairwise R) (ha : l.getLast? = some a) :
    a ∈ l ∧ ∀ b ∈ l, b = a ∨ R b a := by
  have hp2 : l.reverse.Pairwise (fun x y => R y x) :=
    (List.pairwise_reverse).mpr hp
  have ha2 : l.reverse.head? = some a := by rw [List.head?_reverse, ha]
  obtain ⟨hmem, hall⟩ := head?_pairwise_min hp2 ha2
  exact ⟨List.mem_reverse.mp hmem,
    fun b hb => hall b (List.mem_reverse.mpr hb)⟩

lemma rowAtOrAfter_expRows (base : LABase) (rs : Results)
    (l : List Result) (t : ℚ) :
    rowAtOrAfter (l.map (rwOfResult base rs)) t =
      ((l.filter (fun r => t ≤ r.elapsedTime)).head?).map
        (rwOfResult base rs) := by
  unfold rowAtOrAfter
  rw [List.filter_map, List.head?_map]
  exact rfl

lemma rowBefore_expRows (base : LABase) (rs : Results)
    (l : List Result) (t : ℚ) :
    rowBefore (l.map (rwOfResult base rs)) t =
      ((l.filter (fun r => r.elapsedTime < t)).getLast?).map
        (rwOfResult base rs) := by
  unfold rowBefore
  rw [List.filter_map, List.getLast?_map]
  exact rfl

lemma rowAtOrAfter_isFirst (base : LABase) (rs : Results)
    (l : List Result)
    (hsort : l.Pairwise (fun a b => a.elapsedTime < b.elapsedTime))
    (t : ℚ) (w : TED_ResultWide)
    (h : rowAtOrAfter (l.map (rwOfResult base rs)) t = some w) :
    IsFirstTraceAtOrAfter l t w.TRACENUM := by
  rw [rowAtOrAfter_expRows] at h
  obtain ⟨r0, hr0, hfr⟩ := Option.map_eq_some'.mp h
  have hpf : (l.filter (fun r => t ≤ r.elapsedTime)).Pairwise
      (fun a b => a.elapsedTime < b.elapsedTime) := hsort.filter _
  obtain ⟨hmem, hmin⟩ := head?_pairwise_min hpf hr0
  have hr0l : r0 ∈ l := List.mem_of_mem_filter hmem
  have hr0t : t ≤ r0.elapsedTime := by
    have hx := List.of_mem_filter hmem
    simpa using hx
  refine ⟨r0, hr0l, ?_, hr0t, ?_⟩
  · rw [← hfr]
    exact rfl
  · intro r2 h2l h2t
    have h2f : r2 ∈ l.filter (fun r => t ≤ r.elapsedTime) :=
      List.mem_filter.mpr ⟨h2l, by simpa using h2t⟩
    rcases hmin r2 h2f with rfl | hlt
    · exact le_refl _
    · exact le_of_lt hlt

lemma rowBefore_isLastBefore (base : LABase) (rs : Results)
    (l : List Result)
    (hsort : l.Pairwise (fun a b => a.elapsedTime < b.elapsedTime))
    (t : ℚ) (w : TED_ResultWide)
    (h : rowBefore (l.map (rwOfResult base rs)) t = some w) :
    IsLastTraceBefore l t w.TRACENUM := by
  rw [rowBefore_expRows] at h
  obtain ⟨r0, hr0, hfr⟩ := Option.map_eq_some'.mp h
  have hpf : (l.filter (fun r => r.elapsedTime < t)).Pairwise
      (fun a b => a.elapsedTime < b.elapsedTime) := hsort.filter _
  obtain ⟨hmem, hmax⟩ := getLast?_pairwise_max hpf hr0
  have hr0l : r0 ∈ l := List.mem_of_mem_filter hmem
  have hr0t : r0.elapsedTime < t := by
    have hx := List.of_mem_filter hmem
    simpa using hx
  refine ⟨r0, hr0l, ?_, hr0t, ?_⟩
  · rw [← hfr]
    exact rfl
  · intro r2 h2l h2t
    have h2f : r2 ∈ l.filter (fun r => r.elapsedTime < t) :=
      List.mem_filter.mpr ⟨h2l, by simpa using h2t⟩
    rcases hmax r2 h2f with rfl | hlt
    · exact le_refl _
    · exact le_of_lt hlt

lemma getLast_isLastRecorded (base : LABase) (rs : Results)
    (l : List Result)
    (hsort : l.Pairwise (fun a b => a.elapsedTime < b.elapsedTime))
    (w : TED_ResultWide)
    (h : (l.map (rwOfResult base rs)).getLast? = some w) :
    IsLastRecordedTrace l w.TRACENUM := by
  rw [List.getLast?_map] at h
  obtain ⟨r0, hr0, hfr⟩ := Option.map_eq_some'.mp h
  obtain ⟨hmem, hmax⟩ := getLast?_pairwise_max hsort hr0
  refine ⟨r0, hmem, ?_, ?_⟩
  · rw [← hfr]
    exact rfl
  · intro r2 h2l
    rcases hmax r2 h2l with rfl | hlt
    · exact le_refl _
    · exact le_of_lt hlt

lemma expRows_pairwise (base : LABase) (rs : Results) (l : List Result)
    (hsort : l.Pairwise (fun a b => a.elapsedTime < b.elapsedTime)) :
    (l.map (rwOfResult base rs)).Pairwise
      (fun a b => rwKeyLe a b = true) := by
  refine List.Pairwise.map _ ?_ hsort
  intro a b hab
  simp [rwKeyLe, rwOfResult, hab, ne_of_lt hab]

lemma setFinalLAST_length (n : ℤ) :
    ∀ (l : List TED_LiquidAddition),
      (setFinalLAST n l).length = l.length := by
  intro l
  induction l with
  | nil => rfl
  | cons la rest ih =>
    cases rest with
    | nil => rfl
    | cons b t =>
      have hsf : setFinalLAST n (la :: b :: t) =
          la :: setFinalLAST n (b :: t) := rfl
      rw [hsf, List.length_cons, List.length_cons, ih]

/-- The content of the `exp_liq_adds` construction (tedutils.py lines
249-280), for an experiment whose wide rows are already sorted: the
produced rows line up with the processed executions, `FIRST` comes from
the earliest row at or after the execution's time, `LAST` from the
latest row before the next execution's time (the last row of the
experiment for the final execution). -/
lemma liqAdds_spec (tljp : Option LiquidJunctionPotential)
    (exp : Experiment) (tables : ExpTables) (rs : Results)
    (execs : List ExecP)
    (h : experimentTables tljp exp = some tables)
    (hrs : exp.resultsSet.head? = some rs)
    (hex : sortedExecs exp = some execs)
    (hsortel2 : (currentResults rs).Pairwise
      (fun a b => a.elapsedTime < b.elapsedTime)) :
    execs ≠ [] ∧ tables.liqAdds.length = execs.length ∧
    ∀ (i : ℕ) (e : ExecP) (la : TED_LiquidAddition),
      execs[i]? = some e → tables.liqAdds[i]? = some la →
      IsFirstTraceAtOrAfter (currentResults rs) e.TIME la.FIRST ∧
      (∀ e2, execs[i + 1]? = some e2 →
        IsLastTraceBefore (currentResults rs) e2.TIME la.LAST) ∧
      (execs[i + 1]? = none →
        IsLastRecordedTrace (currentResults rs) la.LAST) := by
  obtain ⟨rs', lj, eps, las0, hrs', hlj, hm, heps, hrowsne, hlas, hliq,
    hres⟩ := experimentTables_some tljp exp tables h
  rw [hrs] at hrs'
  injection hrs' with hrseq
  subst hrseq
  have hexeq : execs = dedupF (sortBy execPLe eps) := by
    unfold sortedExecs at hex
    rw [hm] at hex
    simp only [Option.map_some', Option.some.injEq] at hex
    exact hex.symm
  subst hexeq
  have hPW := expRows_pairwise (expBase exp rs lj) rs
    (currentResults rs) hsortel2
  have htmp : sortBy rwKeyLe (expRows (expBase exp rs lj) rs) =
      expRows (expBase exp rs lj) rs := sortBy_eq_self _ _ hPW
  rw [htmp] at hlas hliq
  rw [expLiqAdds_eq_chain] at hlas
  cases hch : rangesChain (expRows (expBase exp rs lj) rs)
      (expBase exp rs lj) (dedupF (sortBy execPLe eps)) with
  | none =>
    rw [hch] at hlas
    simp at hlas
  | some ch =>
    rw [hch] at hlas
    simp only [Option.some_bind] at hlas
    by_cases hchnil : ch = []
    · rw [if_pos hchnil] at hlas
      exact Option.noConfusion hlas
    · rw [if_neg hchnil] at hlas
      cases hgl : (expRows (expBase exp rs lj) rs).getLast? with
      | none =>
        rw [hgl] at hlas
        simp at hlas
      | some rlast =>
        rw [hgl] at hlas
        simp only [Option.map_some', Option.some.injEq] at hlas
        have hlen : ch.length = (dedupF (sortBy execPLe eps)).length :=
          rangesChain_length _ _ _ _ hch
        refine ⟨?_, ?_, ?_⟩
        · intro hnil
          have hz : ch.length = 0 := by rw [hlen, hnil]; rfl
          exact hchnil (List.length_eq_zero.mp hz)
        · rw [hliq]
          unfold populateLiqAdds
          rw [List.length_map, ← hlas, setFinalLAST_length, hlen]
        · intro i e la hei hlai
          rw [hliq] at hlai
          unfold populateLiqAdds at hlai
          rw [List.getElem?_map] at hlai
          obtain ⟨la0, hla0, hfla⟩ := Option.map_eq_some'.mp hlai
          have hF : la.FIRST = la0.FIRST := by rw [← hfla]
          have hL : la.LAST = la0.LAST := by rw [← hfla]
          rw [← hlas] at hla0
          rw [setFinalLAST_getElem] at hla0
          by_cases hfin : i + 1 = ch.length
          · rw [if_pos hfin] at hla0
            obtain ⟨ci, hci, hcieq⟩ := Option.map_eq_some'.mp hla0
            obtain ⟨rf, hrf, hshape, hmid2, hnone2⟩ :=
              rangesChain_spec _ _ _ _ hch i e ci hei hci
            have h0F : la0.FIRST = ci.FIRST := by rw [← hcieq]
            refine ⟨?_, ?_, ?_⟩
            · rw [hF, h0F, hshape]
              exact rowAtOrAfter_isFirst (expBase exp rs lj) rs
                (currentResults rs) hsortel2 e.TIME rf hrf
            · intro e2 he2
              exfalso
              have hnone : (dedupF (sortBy execPLe eps))[i + 1]? = none := by
                apply List.getElem?_eq_none
                omega
              rw [hnone] at he2
              exact Option.noConfusion he2
            · intro hdummy
              have h0L : la0.LAST = rlast.TRACENUM := by rw [← hcieq]
              rw [hL, h0L]
              exact getLast_isLastRecorded (expBase exp rs lj) rs
                (currentResults rs) hsortel2 rlast hgl
          · rw [if_neg hfin] at hla0
            obtain ⟨rf, hrf, hshape, hmid2, hnone2⟩ :=
              rangesChain_spec _ _ _ _ hch i e la0 hei hla0
            refine ⟨?_, ?_, ?_⟩
            · rw [hF, hshape]
              exact rowAtOrAfter_isFirst (expBase exp rs lj) rs
                (currentResults rs) hsortel2 e.TIME rf hrf
            · intro e2 he2
              obtain ⟨rl2, hrl2, hlast⟩ := hmid2 e2 he2
              rw [hL, hlast]
              exact rowBefore_isLastBefore (expBase exp rs lj) rs
                (currentResults rs) hsortel2 e2.TIME rl2 hrl2
            · intro hno
              exfalso
              have h1 := getElem?_some_lt hei
              have h2 := getElem?_none_le hno
              omega

/-- C2: for an experiment whose current results are listed with elapsed
time and trace number strictly increasing together, the builder sets the
`i`-th addition row's `FIRST` to the trace number of the earliest
recorded result at or after the `i`-th processed execution's time, its
`LAST` to the trace number of the latest recorded result strictly before
the next execution's time, and the final row's `LAST` to the last
recorded trace number; in particular the example experiment (additions
at t = 0 s and t = 5 s, traces at t = 0..9 s) gets the ranges [1, 5] and
[6, 10]. -/
theorem builder_liquid_range_assignment :
    (∀ (tljp : Option LiquidJunctionPotential) (exp : Experiment)
      (tables : ExpTables) (rs : Results) (execs : List ExecP),
      experimentTables tljp exp = some tables →
      exp.resultsSet.head? = some rs →
      sortedExecs exp = some execs →
      (currentResults rs).Pairwise
        (fun a b => a.elapsedTime < b.elapsedTime ∧
          a.traceNumber < b.traceNumber) →
      ∀ (i : ℕ) (e : ExecP) (la : TED_LiquidAddition),
        execs[i]? = some e → tables.liqAdds[i]? = some la →
        IsFirstTraceAtOrAfter (currentResults rs) e.TIME la.FIRST ∧
        (∀ e2, execs[i + 1]? = some e2 →
          IsLastTraceBefore (currentResults rs) e2.TIME la.LAST) ∧
        (execs[i + 1]? = none →
          IsLastRecordedTrace (currentResults rs) la.LAST)) ∧
    Option.map (fun tb => tb.liqAdds.map (fun la => (la.FIRST, la.LAST)))
      (experimentTables exTrial.ljp exExperiment) =
      some [(1, 5), (6, 10)] := by
  constructor
  · intro tljp exp tables rs execs h hrs hex hmono
    exact (liqAdds_spec tljp exp tables rs execs h hrs hex
      (hmono.imp (fun hab => hab.1))).2.2
  · decide

/-- Witness for C2 on the example experiment: the first addition's
range-defining traces and the second addition's, at t = 0 s and
t = 5 s. -/
theorem builder_liquid_range_assignment_witness :
    IsFirstTraceAtOrAfter (currentResults exResults) 0 1 ∧
    IsLastTraceBefore (currentResults exResults) 5 5 ∧
    IsFirstTraceAtOrAfter (currentResults exResults) 5 6 ∧
    IsLastRecordedTrace (currentResults exResults) 10 := by
  have H := builder_liquid_range_assignment.1 exTrial.ljp exExperiment
    exTables exResults exExecs (by decide) (by decide) (by decide)
    (by decide)
  obtain ⟨hA, hB, _⟩ := H 0 exExecA exLaA (by decide) (by decide)
  obtain ⟨hC, _, hD⟩ := H 1 exExecB exLaB (by decide) (by decide)
  exact ⟨hA, hB exExecB (by decide), hC, hD (by decide)⟩

lemma pairwise_le_getElem {α : Type} {R : α → α → Prop} {l : List α}
    (hp : l.Pairwise R) {i j : ℕ} {a b : α} (hij : i < j)
    (ha : l[i]? = some a) (hb : l[j]? = some b) : R a b := by
  have hi := getElem?_some_lt ha
  have hj := getElem?_some_lt hb
  rw [List.getElem?_eq_getElem hi] at ha
  rw [List.getElem?_eq_getElem hj] at hb
  injection ha with ha2
  injection hb with hb2
  subst ha2
  subst hb2
  exact List.pairwise_iff_getElem.mp hp i j hi hj hij

lemma pairwise_mono_both {l : List Result}
    (hmono : l.Pairwise (fun a b => a.elapsedTime < b.elapsedTime ∧
      a.traceNumber < b.traceNumber))
    {r s : Result} (hr : r ∈ l) (hs : s ∈ l) :
    (r.elapsedTime < s.elapsedTime ↔ r.traceNumber < s.traceNumber) ∧
    (r.elapsedTime ≤ s.elapsedTime ↔ r.traceNumber ≤ s.traceNumber) := by
  obtain ⟨i, hi, rfl⟩ := List.mem_iff_getElem.mp hr
  obtain ⟨j, hj, rfl⟩ := List.mem_iff_getElem.mp hs
  have hcases := List.pairwise_iff_getElem.mp hmono
  rcases lt_trichotomy i j with hij | rfl | hij
  · have hx := hcases i j hi hj hij
    exact ⟨iff_of_true hx.1 hx.2,
      iff_of_true (le_of_lt hx.1) (le_of_lt hx.2)⟩
  · exact ⟨iff_of_false (lt_irrefl _) (lt_irrefl _),
      iff_of_true (le_refl _) (le_refl _)⟩
  · have hx := hcases j i hj hi hij
    exact ⟨iff_of_false (lt_asymm hx.1) (lt_asymm hx.2),
      iff_of_false (not_le.mpr hx.1) (not_le.mpr hx.2)⟩

lemma last_true_index {α : Type} (Q : α → Bool) (l : List α) (i : ℕ)
    (e : α) (hie : l[i]? = some e) (hQ : Q e = true) :
    ∃ j ej, l[j]? = some ej ∧ Q ej = true ∧
      ∀ e2, l[j + 1]? = some e2 → Q e2 = false := by
  set P : ℕ → Prop := fun k => ((l[k]?).map Q).getD false = true with hPdef
  have hPi : P i := by
    show ((l[i]?).map Q).getD false = true
    simp [hie, hQ]
  have hilen : i < l.length := getElem?_some_lt hie
  have hib : i ≤ l.length - 1 := by omega
  have hPj2 : ((l[Nat.findGreatest P (l.length - 1)]?).map Q).getD false
      = true := Nat.findGreatest_spec hib hPi
  cases hje : l[Nat.findGreatest P (l.length - 1)]? with
  | none => rw [hje] at hPj2; simp at hPj2
  | some ej =>
    rw [hje] at hPj2
    simp only [Option.map_some', Option.getD_some] at hPj2
    refine ⟨Nat.findGreatest P (l.length - 1), ej, hje, hPj2, ?_⟩
    intro e2 he2
    have hj1len : Nat.findGreatest P (l.length - 1) + 1 < l.length :=
      getElem?_some_lt he2
    have hnot : ¬ P (Nat.findGreatest P (l.length - 1) + 1) :=
      Nat.findGreatest_is_greatest (Nat.lt_succ_self _) (by omega)
    cases hq2 : Q e2 with
    | false => rfl
    | true =>
      exfalso
      apply hnot
      show ((l[Nat.findGreatest P (l.length - 1) + 1]?).map Q).getD false
        = true
      simp [he2, hq2]

/-- C3 counterexample: with a single liquid addition at t = 5 s and ten
traces at t = 0..9 s the builder emits the sole range [6, 10]; traces
1..5 are recorded but lie in no range, so the ranges do not cover the
recorded trace numbers. -/
theorem builder_ranges_not_partition_counterexample :
    Option.map (fun tb => tb.liqAdds.map (fun la => (la.FIRST, la.LAST)))
      (experimentTables exTrial.ljp exExperimentLate) = some [(6, 10)] ∧
    Option.map (fun tb => tb.resWide.map (fun r => r.TRACENUM))
      (experimentTables exTrial.ljp exExperimentLate) =
      some [1, 2, 3, 4, 5, 6, 7, 8, 9, 10] ∧
    Option.map (fun tb => tb.liqAdds.all
        (fun la => decide ¬(la.FIRST ≤ 1 ∧ 1 ≤ la.LAST)))
      (experimentTables exTrial.ljp exExperimentLate) = some true := by
  refine ⟨by decide, by decide, by decide⟩

/-- C3 (amended): when additionally the earliest processed execution
happens no later than every current result and the execution times are
listed in ascending order, the `[FIRST, LAST]` ranges cover every
recorded trace number and no recorded trace number lies in two distinct
rows' ranges. -/
theorem builder_ranges_partition_of_initial_addition
    (tljp : Option LiquidJunctionPotential) (exp : Experiment)
    (tables : ExpTables) (rs : Results) (execs : List ExecP)
    (h : experimentTables tljp exp = some tables)
    (hrs : exp.resultsSet.head? = some rs)
    (hex : sortedExecs exp = some execs)
    (hmono : (currentResults rs).Pairwise
      (fun a b => a.elapsedTime < b.elapsedTime ∧
        a.traceNumber < b.traceNumber))
    (hts : execs.Pairwise (fun a b => a.TIME ≤ b.TIME))
    (hinit : ∀ e0, execs.head? = some e0 →
      ∀ r ∈ currentResults rs, e0.TIME ≤ r.elapsedTime) :
    (∀ r ∈ currentResults rs, ∃ (i : ℕ) (la : TED_LiquidAddition),
      tables.liqAdds[i]? = some la ∧
      la.FIRST ≤ r.traceNumber ∧ r.traceNumber ≤ la.LAST) ∧
    (∀ r ∈ currentResults rs, ∀ (i j : ℕ)
      (lai laj : TED_LiquidAddition),
      tables.liqAdds[i]? = some lai → tables.liqAdds[j]? = some laj →
      lai.FIRST ≤ r.traceNumber → r.traceNumber ≤ lai.LAST →
      laj.FIRST ≤ r.traceNumber → r.traceNumber ≤ laj.LAST → i = j) := by
  obtain ⟨hne, hlen, hspec⟩ := liqAdds_spec tljp exp tables rs execs h
    hrs hex (hmono.imp (fun hab => hab.1))
  have key : ∀ (i : ℕ) (e : ExecP) (la : TED_LiquidAddition),
      execs[i]? = some e → tables.liqAdds[i]? = some la →
      ∀ r ∈ currentResults rs,
        (la.FIRST ≤ r.traceNumber ↔ e.TIME ≤ r.elapsedTime) ∧
        (∀ e2, execs[i + 1]? = some e2 →
          (r.traceNumber ≤ la.LAST ↔ r.elapsedTime < e2.TIME)) ∧
        (execs[i + 1]? = none → r.traceNumber ≤ la.LAST) := by
    intro i e la hie hila r hr
    obtain ⟨hA, hB, hC⟩ := hspec i e la hie hila
    obtain ⟨rf, hrfm, hrftn, hrft, hrfmin⟩ := hA
    refine ⟨⟨?_, ?_⟩, ?_, ?_⟩
    · intro hFle
      by_contra hnt
      push_neg at hnt
      have h1 : r.elapsedTime < rf.elapsedTime := lt_of_lt_of_le hnt hrft
      have h2 : r.traceNumber < rf.traceNumber :=
        ((pairwise_mono_both hmono hr hrfm).1).mp h1
      omega
    · intro ht
      have h1 : rf.elapsedTime ≤ r.elapsedTime := hrfmin r hr ht
      have h2 : rf.traceNumber ≤ r.traceNumber :=
        ((pairwise_mono_both hmono hrfm hr).2).mp h1
      omega
    · intro e2 he2
      obtain ⟨rl, hrlm, hrltn, hrlt, hrlmax⟩ := hB e2 he2
      constructor
      · intro hle
        by_contra hnt
        push_neg at hnt
        have h1 : rl.elapsedTime < r.elapsedTime := lt_of_lt_of_le hrlt hnt
        have h2 : rl.traceNumber < r.traceNumber :=
          ((pairwise_mono_both hmono hrlm hr).1).mp h1
        omega
      · intro hlt
        have h1 : r.elapsedTime ≤ rl.elapsedTime := hrlmax r hr hlt
        have h2 : r.traceNumber ≤ rl.traceNumber :=
          ((pairwise_mono_both hmono hr hrlm).2).mp h1
        omega
    · intro hnone
      obtain ⟨rl, hrlm, hrltn, hrlmax⟩ := hC hnone
      have h1 : r.elapsedTime ≤ rl.elapsedTime := hrlmax r hr
      have h2 : r.traceNumber ≤ rl.traceNumber :=
        ((pairwise_mono_both hmono hr hrlm).2).mp h1
      omega
  constructor
  · intro r hr
    obtain ⟨e0, rest, hexecs⟩ := List.exists_cons_of_ne_nil hne
    subst hexecs
    have h00 : (e0 :: rest)[0]? = some e0 := by simp
    have ht0 : e0.TIME ≤ r.elapsedTime := hinit e0 (by simp) r hr
    have hq0 : (fun e : ExecP =>
        decide (e.TIME ≤ r.elapsedTime)) e0 = true := by
      simp [ht0]
    obtain ⟨j, ej, hje, hQj, hmaxj⟩ := last_true_index
      (fun e : ExecP => decide (e.TIME ≤ r.elapsedTime))
      (e0 :: rest) 0 e0 h00 hq0
    have hjlt : j < (e0 :: rest).length := getElem?_some_lt hje
    cases hla : tables.liqAdds[j]? with
    | none =>
      have := getElem?_none_le hla
      omega
    | some laj =>
      obtain ⟨k1, k2, k3⟩ := key j ej laj hje hla r hr
      refine ⟨j, laj, hla, ?_, ?_⟩
      · exact k1.mpr (of_decide_eq_true hQj)
      · cases he2 : (e0 :: rest)[j + 1]? with
        | none => exact k3 he2
        | some e2 =>
          have hfq := hmaxj e2 he2
          have hnt : ¬ e2.TIME ≤ r.elapsedTime := of_decide_eq_false hfq
          exact (k2 e2 he2).mpr (not_le.mp hnt)
  · intro r hr i j lai laj hilai hjlaj hiF hiL hjF hjL
    have core : ∀ (i2 j2 : ℕ) (la2 la3 : TED_LiquidAddition), i2 < j2 →
        tables.liqAdds[i2]? = some la2 →
        tables.liqAdds[j2]? = some la3 →
        la2.FIRST ≤ r.traceNumber → r.traceNumber ≤ la2.LAST →
        la3.FIRST ≤ r.traceNumber → r.traceNumber ≤ la3.LAST →
        False := by
      intro i2 j2 la2 la3 hij hla2 hla3 hF2 hL2 hF3 hL3
      have hi2 : i2 < tables.liqAdds.length := getElem?_some_lt hla2
      have hj2 : j2 < tables.liqAdds.length := getElem?_some_lt hla3
      cases he2 : execs[i2]? with
      | none =>
        have := getElem?_none_le he2
        omega
      | some ei2 =>
        cases he3 : execs[j2]? with
        | none =>
          have := getElem?_none_le he3
          omega
        | some ej2 =>
          obtain ⟨k1i, k2i, k3i⟩ := key i2 ei2 la2 he2 hla2 r hr
          obtain ⟨k1j, k2j, k3j⟩ := key j2 ej2 la3 he3 hla3 r hr
          have htj : ej2.TIME ≤ r.elapsedTime := k1j.mp hF3
          cases hesucc : execs[i2 + 1]? with
          | none =>
            have := getElem?_none_le hesucc
            omega
          | some esucc =>
            have hlt : r.elapsedTime < esucc.TIME :=
              (k2i esucc hesucc).mp hL2
            have hle2 : esucc.TIME ≤ ej2.TIME := by
              rcases eq_or_lt_of_le (show i2 + 1 ≤ j2 by omega) with heq | hlt2
              · rw [heq] at hesucc
                rw [he3] at hesucc
                injection hesucc with hesucc2
                exact le_of_eq (by rw [hesucc2])
              · exact pairwise_le_getElem hts hlt2 hesucc he3
            exact absurd htj (not_le.mpr (lt_of_lt_of_le hlt hle2))
    rcases lt_trichotomy i j with hij | rfl | hij
    · exact (core i j lai laj hij hilai hjlaj hiF hiL hjF hjL).elim
    · rfl
    · exact (core j i laj lai hij hjlaj hilai hjF hjL hiF hiL).elim

/-- Witness for the amended C3 theorem on the example experiment: trace
3 (recorded at t = 2 s) lies in one of the produced ranges. -/
theorem builder_ranges_partition_of_initial_addition_witness :
    ∃ (i : ℕ) (la : TED_LiquidAddition),
      exTables.liqAdds[i]? = some la ∧
      la.FIRST ≤ 3 ∧ (3 : ℤ) ≤ la.LAST := by
  have H := builder_ranges_partition_of_initial_addition exTrial.ljp
    exExperiment exTables exResults exExecs (by decide) (by decide)
    (by decide) (by decide) (by decide)
    (by
      intro e0 he0
      have hh : exExecs.head? = some exExecA := by decide
      rw [hh] at he0
      injection he0 with he0h
      subst he0h
      decide)
  exact H.1 (exRes 3 2) (by decide)

lemma uLt_trans {a b c : UInt32} (h1 : a < b) (h2 : b < c) : a < c := by
  have h1a : a.toNat < b.toNat := h1
  have h2a : b.toNat < c.toNat := h2
  show a.toNat < c.toNat
  omega

lemma uLt_irrefl (a : UInt32) : ¬ a < a := by
  intro h
  have h2 : a.toNat < a.toNat := h
  omega

lemma uEq_of_not_lt {a b : UInt32} (h1 : ¬ a < b) (h2 : ¬ b < a) :
    a = b := by
  have h1a : ¬ a.toNat < b.toNat := h1
  have h2a : ¬ b.toNat < a.toNat := h2
  exact UInt32.ext (by omega)

lemma strLt_trans : ∀ {a b c : Str}, strLt a b = true → strLt b c = true →
    strLt a c = true := by
  intro a
  induction a with
  | nil =>
    intro b c hab hbc
    cases b with
    | nil => cases hab
    | cons y bs =>
      cases c with
      | nil => cases hbc
      | cons z cs => rfl
  | cons x as ih =>
    intro b c hab hbc
    cases b with
    | nil => cases hab
    | cons y bs =>
      cases c with
      | nil => cases hbc
      | cons z cs =>
        simp only [strLt] at hab hbc ⊢
        by_cases hxy : x.val < y.val
        · by_cases hyz : y.val < z.val
          · rw [if_pos (uLt_trans hxy hyz)]
          · rw [if_neg hyz] at hbc
            by_cases hzy : z.val < y.val
            · rw [if_pos hzy] at hbc
              cases hbc
            · rw [if_neg hzy] at hbc
              have hyzeq : y.val = z.val := uEq_of_not_lt hyz hzy
              rw [if_pos (hyzeq ▸ hxy)]
        · rw [if_neg hxy] at hab
          by_cases hyx : y.val < x.val
          · rw [if_pos hyx] at hab
            cases hab
          · rw [if_neg hyx] at hab
            have hxyeq : x.val = y.val := uEq_of_not_lt hxy hyx
            by_cases hyz : y.val < z.val
            · rw [if_pos (hxyeq ▸ hyz)]
            · rw [if_neg hyz] at hbc
              by_cases hzy : z.val < y.val
              · rw [if_pos hzy] at hbc
                cases hbc
              · rw [if_neg hzy] at hbc
                rw [if_neg (hxyeq ▸ hyz), if_neg (hxyeq ▸ hzy)]
                exact ih hab hbc

lemma strLt_irrefl : ∀ (a : Str), strLt a a = false := by
  intro a
  induction a with
  | nil => rfl
  | cons x as ih =>
    simp only [strLt]
    rw [if_neg (uLt_irrefl x.val), if_neg (uLt_irrefl x.val)]
    exact ih

lemma strLt_asymm {a b : Str} (h : strLt a b = true) :
    strLt b a = false := by
  cases hba : strLt b a with
  | false => rfl
  | true =>
    have := strLt_trans h hba
    rw [strLt_irrefl] at this
    cases this

lemma strLt_eq_of_not : ∀ {a b : Str}, strLt a b = false →
    strLt b a = false → a = b := by
  intro a
  induction a with
  | nil =>
    intro b hab hba
    cases b with
    | nil => rfl
    | cons y bs => cases hab
  | cons x as ih =>
    intro b hab hba
    cases b with
    | nil => cases hba
    | cons y bs =>
      simp only [strLt] at hab hba
      by_cases hxy : x.val < y.val
      · rw [if_pos hxy] at hab
        cases hab
      · by_cases hyx : y.val < x.val
        · rw [if_pos hyx] at hba
          cases hba
        · rw [if_neg hxy, if_neg hyx] at hab
          rw [if_neg hyx, if_neg hxy] at hba
          have hxyeq : x = y := Char.ext (uEq_of_not_lt hxy hyx)
          rw [hxyeq, ih hab hba]

lemma rwKeyLe_total (a b : TED_ResultWide) :
    rwKeyLe a b = true ∨ rwKeyLe b a = true := by
  unfold rwKeyLe
  by_cases h1 : a.EXPID = b.EXPID
  · rw [h1]
    simp only [ne_eq, not_true_eq_false, if_false, reduceIte]
    by_cases h2 : a.CELLID = b.CELLID
    · rw [h2]
      simp only [ne_eq, not_true_eq_false, if_false, reduceIte]
      by_cases h3 : a.ELTIME = b.ELTIME
      · rw [h3]
        simp only [ne_eq, not_true_eq_false, if_false, reduceIte]
        rcases le_total a.TRACENUM b.TRACENUM with h | h
        · exact Or.inl (by simpa using h)
        · exact Or.inr (by simpa using h)
      · rw [if_pos h3, if_pos (Ne.symm h3)]
        rcases lt_or_gt_of_ne h3 with h | h
        · exact Or.inl (by simpa using h)
        · exact Or.inr (by simpa using h)
    · rw [if_pos h2, if_pos (Ne.symm h2)]
      cases hlt : strLt a.CELLID b.CELLID with
      | true => exact Or.inl rfl
      | false =>
        cases hlt2 : strLt b.CELLID a.CELLID with
        | true => exact Or.inr rfl
        | false => exact absurd (strLt_eq_of_not hlt hlt2) h2
  · rw [if_pos h1, if_pos (Ne.symm h1)]
    cases hlt : strLt a.EXPID b.EXPID with
    | true => exact Or.inl rfl
    | false =>
      cases hlt2 : strLt b.EXPID a.EXPID with
      | true => exact Or.inr rfl
      | false => exact absurd (strLt_eq_of_not hlt hlt2) h1

lemma rwKeyLe_trans {a b c : TED_ResultWide} (hab : rwKeyLe a b = true)
    (hbc : rwKeyLe b c = true) : rwKeyLe a c = true := by
  unfold rwKeyLe at hab hbc ⊢
  by_cases h1 : a.EXPID = b.EXPID
  · rw [if_neg (by simpa using h1)] at hab
    by_cases h2 : b.EXPID = c.EXPID
    · rw [if_neg (by simpa using h2)] at hbc
      have hac : a.EXPID = c.EXPID := h1.trans h2
      rw [if_neg (by simpa using hac)]
      by_cases h3 : a.CELLID = b.CELLID
      · rw [if_neg (by simpa using h3)] at hab
        by_cases h4 : b.CELLID = c.CELLID
        · rw [if_neg (by simpa using h4)] at hbc
          have hcc : a.CELLID = c.CELLID := h3.trans h4
          rw [if_neg (by simpa using hcc)]
          by_cases h5 : a.ELTIME = b.ELTIME
          · rw [if_neg (by simpa using h5)] at hab
            by_cases h6 : b.ELTIME = c.ELTIME
            · rw [if_neg (by simpa using h6)] at hbc
              have het : a.ELTIME = c.ELTIME := h5.trans h6
              rw [if_neg (by simpa using het)]
              have t1 : a.TRACENUM ≤ b.TRACENUM := by simpa using hab
              have t2 : b.TRACENUM ≤ c.TRACENUM := by simpa using hbc
              simpa using le_trans t1 t2
            · rw [if_pos (by simpa using h6)] at hbc
              have l2 : b.ELTIME < c.ELTIME := by simpa using hbc
              have het : a.ELTIME ≠ c.ELTIME := by
                rw [h5]
                exact l2.ne
              rw [if_pos (by simpa using het)]
              rw [h5]
              exact hbc
          · rw [if_pos (by simpa using h5)] at hab
            by_cases h6 : b.ELTIME = c.ELTIME
            · rw [if_neg (by simpa using h6)] at hbc
              have het : a.ELTIME ≠ c.ELTIME := by
                rw [← h6]
                exact h5
              rw [if_pos (by simpa using het)]
              rw [← h6]
              exact hab
            · rw [if_pos (by simpa using h6)] at hbc
              have l1 : a.ELTIME < b.ELTIME := by simpa using hab
              have l2 : b.ELTIME < c.ELTIME := by simpa using hbc
              have l3 : a.ELTIME < c.ELTIME := lt_trans l1 l2
              rw [if_pos (by simpa using l3.ne)]
              simpa using l3
        · rw [if_pos (by simpa using h4)] at hbc
          have hcc : a.CELLID ≠ c.CELLID := by
            rw [h3]
            exact h4
          rw [if_pos (by simpa using hcc)]
          rw [h3]
          exact hbc
      · rw [if_pos (by simpa using h3)] at hab
        by_cases h4 : b.CELLID = c.CELLID
        · rw [if_neg (by simpa using h4)] at hbc
          have hcc : a.CELLID ≠ c.CELLID := by
            rw [← h4]
            exact h3
          rw [if_pos (by simpa using hcc)]
          rw [← h4]
          exact hab
        · rw [if_pos (by simpa using h4)] at hbc
          have l3 : strLt a.CELLID c.CELLID = true := strLt_trans hab hbc
          have hcc : a.CELLID ≠ c.CELLID := by
            intro he
            rw [he, strLt_irrefl] at l3
            cases l3
          rw [if_pos (by simpa using hcc)]
          exact l3
    · rw [if_pos (by simpa using h2)] at hbc
      have hcc : a.EXPID ≠ c.EXPID := by
        rw [h1]
        exact h2
      rw [if_pos (by simpa using hcc)]
      rw [h1]
      exact hbc
  · rw [if_pos (by simpa using h1)] at hab
    by_cases h2 : b.EXPID = c.EXPID
    · rw [if_neg (by simpa using h2)] at hbc
      have hcc : a.EXPID ≠ c.EXPID := by
        rw [← h2]
        exact h1
      rw [if_pos (by simpa using hcc)]
      rw [← h2]
      exact hab
    · rw [if_pos (by simpa using h2)] at hbc
      have l3 : strLt a.EXPID c.EXPID = true := strLt_trans hab hbc
      have hcc : a.EXPID ≠ c.EXPID := by
        intro he
        rw [he, strLt_irrefl] at l3
        cases l3
      rw [if_pos (by simpa using hcc)]
      exact l3

lemma insertLe_perm {α : Type} (le : α → α → Bool) (x : α) (l : List α) :
    (insertLe le x l).Perm (x :: l) := by
  induction l with
  | nil => exact List.Perm.refl _
  | cons y ys ih =>
    simp only [insertLe]
    by_cases h : le x y = true
    · rw [if_pos h]
    · rw [if_neg h]
      exact (ih.cons y).trans (List.Perm.swap x y ys)

lemma sortBy_perm {α : Type} (le : α → α → Bool) (l : List α) :
    (sortBy le l).Perm l := by
  induction l with
  | nil => exact List.Perm.refl _
  | cons x xs ih =>
    have hs : sortBy le (x :: xs) = insertLe le x (sortBy le xs) := rfl
    rw [hs]
    exact (insertLe_perm le x (sortBy le xs)).trans (ih.cons x)

lemma insertLe_sorted {α : Type} (le : α → α → Bool)
    (htot : ∀ a b, le a b = true ∨ le b a = true)
    (htrans : ∀ {a b c}, le a b = true → le b c = true → le a c = true)
    (x : α) (l : List α) (hl : l.Pairwise (fun a b => le a b = true)) :
    (insertLe le x l).Pairwise (fun a b => le a b = true) := by
  induction l with
  | nil => simp [insertLe]
  | cons y ys ih =>
    rw [List.pairwise_cons] at hl
    simp only [insertLe]
    by_cases h : le x y = true
    · rw [if_pos h]
      rw [List.pairwise_cons]
      constructor
      · intro b hb
        rcases List.mem_cons.mp hb with rfl | hb2
        · exact h
        · exact htrans h (hl.1 b hb2)
      · exact List.pairwise_cons.mpr hl
    · rw [if_neg h]
      rw [List.pairwise_cons]
      constructor
      · intro b hb
        have hmem := (insertLe_perm le x ys).mem_iff.mp hb
        rcases List.mem_cons.mp hmem with rfl | hb2
        · rcases htot y b with hy | hy
          · exact hy
          · exact absurd hy h
        · exact hl.1 b hb2
      · exact ih hl.2

lemma sortBy_sorted {α : Type} (le : α → α → Bool)
    (htot : ∀ a b, le a b = true ∨ le b a = true)
    (htrans : ∀ {a b c}, le a b = true → le b c = true → le a c = true)
    (l : List α) :
    (sortBy le l).Pairwise (fun a b => le a b = true) := by
  induction l with
  | nil => simp [sortBy]
  | cons x xs ih =>
    have hs : sortBy le (x :: xs) = insertLe le x (sortBy le xs) := rfl
    rw [hs]
    exact insertLe_sorted le htot htrans x (sortBy le xs) ih

lemma dedupFAux_nodup {α : Type} [DecidableEq α] :
    ∀ (l seen : List α), (dedupFAux seen l).Nodup ∧
      ∀ a ∈ dedupFAux seen l, a ∉ seen := by
  intro l
  induction l with
  | nil => intro seen; exact ⟨List.nodup_nil, by simp [dedupFAux]⟩
  | cons x xs ih =>
    intro seen
    simp only [dedupFAux]
    by_cases hx : x ∈ seen
    · rw [if_pos hx]
      exact ih seen
    · rw [if_neg hx]
      obtain ⟨hnd, hns⟩ := ih (x :: seen)
      constructor
      · rw [List.nodup_cons]
        refine ⟨?_, hnd⟩
        intro hmem
        exact hns x hmem (List.mem_cons_self _ _)
      · intro a ha
        rcases List.mem_cons.mp ha with rfl | ha2
        · exact hx
        · intro hseen
          exact hns a ha2 (List.mem_cons_of_mem _ hseen)

lemma dedupF_nodup {α : Type} [DecidableEq α] (l : List α) :
    (dedupF l).Nodup := (dedupFAux_nodup l []).1

lemma dedupF_ne_nil {α : Type} [DecidableEq α] {x : α} {xs : List α} :
    dedupF (x :: xs) ≠ [] := by
  unfold dedupF
  simp only [dedupFAux]
  rw [if_neg (List.not_mem_nil x)]
  exact List.cons_ne_nil _ _

lemma dedupFAux_eq_nil {α : Type} [DecidableEq α] :
    ∀ (l seen : List α), (∀ a ∈ l, a ∈ seen) → dedupFAux seen l = [] := by
  intro l
  induction l with
  | nil => intro seen _; rfl
  | cons x xs ih =>
    intro seen hsub
    simp only [dedupFAux]
    rw [if_pos (hsub x (List.mem_cons_self _ _))]
    exact ih seen (fun a ha => hsub a (List.mem_cons_of_mem _ ha))

lemma dedupFAux_append_subset {α : Type} [DecidableEq α] :
    ∀ (l1 l2 seen : List α), (∀ a ∈ l2, a ∈ seen ∨ a ∈ l1) →
      dedupFAux seen (l1 ++ l2) = dedupFAux seen l1 := by
  intro l1
  induction l1 with
  | nil =>
    intro l2 seen hsub
    simp only [List.nil_append]
    exact dedupFAux_eq_nil l2 seen
      (fun a ha => (hsub a ha).resolve_right (List.not_mem_nil a))
  | cons x xs ih =>
    intro l2 seen hsub
    simp only [List.cons_append, dedupFAux]
    by_cases hx : x ∈ seen
    · rw [if_pos hx, if_pos hx]
      apply ih
      intro a ha
      rcases hsub a ha with h | h
      · exact Or.inl h
      · rcases List.mem_cons.mp h with rfl | h2
        · exact Or.inl hx
        · exact Or.inr h2
    · rw [if_neg hx, if_neg hx]
      congr 1
      apply ih
      intro a ha
      rcases hsub a ha with h | h
      · exact Or.inl (List.mem_cons_of_mem _ h)
      · rcases List.mem_cons.mp h with rfl | h2
        · exact Or.inl (List.mem_cons_self _ _)
        · exact Or.inr h2

lemma dedupF_append_subset {α : Type} [DecidableEq α] (l1 l2 : List α)
    (h : ∀ a ∈ l2, a ∈ l1) : dedupF (l1 ++ l2) = dedupF l1 :=
  dedupFAux_append_subset l1 l2 [] (fun a ha => Or.inr (h a ha))

lemma dedupF_flatMap_const {α β : Type} [DecidableEq β] (f : α → List β)
    (ks : List β) :
    ∀ (l : List α), l ≠ [] → (∀ r ∈ l, f r = ks) →
      dedupF (l.flatMap f) = dedupF ks := by
  intro l
  induction l with
  | nil => intro h; cases h rfl
  | cons x xs ih =>
    intro hne hall
    have hcons : (x :: xs).flatMap f = f x ++ xs.flatMap f := rfl
    rw [hcons, hall x (List.mem_cons_self _ _)]
    apply dedupF_append_subset
    intro a ha
    rw [List.mem_flatMap] at ha
    obtain ⟨r, hr, har⟩ := ha
    rw [hall r (List.mem_cons_of_mem _ hr)] at har
    exact har

lemma rwBase13_subset : ∀ a ∈ rwBase13, a ∈ rwFixedCols := by
  intro a ha
  fin_cases ha <;> decide

lemma dataframes_resWide_shape (trial : Trial) (dfs : Dataframes)
    (h : cells_cursors_liquids_results_dataframes trial = some dfs) :
    ∃ rows : List TED_ResultWide, rows ≠ [] ∧
      dfs.resWide = sortBy rwKeyLe (dedupF rows) := by
  cases hm : trial.experiments.mapM (experimentTables trial.ljp) with
  | none =>
    simp only [cells_cursors_liquids_results_dataframes,
      Option.bind_eq_bind, hm, Option.none_bind] at h
    exact Option.noConfusion h
  | some tables =>
    simp only [cells_cursors_liquids_results_dataframes,
      Option.bind_eq_bind, hm, Option.some_bind, Option.pure_def] at h
    by_cases hliq : (tables.map (·.liqAdds)).flatten = []
    · rw [if_pos hliq] at h
      exact Option.noConfusion h
    · rw [if_neg hliq] at h
      by_cases hres : (tables.map (·.resWide)).flatten = []
      · rw [if_pos hres] at h
        exact Option.noConfusion h
      · rw [if_neg hres] at h
        simp only [Option.some.injEq] at h
        subst h
        refine ⟨((tables.map (·.resWide)).flatten).map dropSrcxfn, ?_, rfl⟩
        intro hnil
        rw [List.map_eq_nil_iff] at hnil
        exact hres hnil

/-- C7 counterexample on the example trial: the written `ResultsWide`
sheet has no `SRCXFN` column (it is dropped at write-out) but does have
the back-filled `CTLFL` and `SBFL` columns. -/
theorem resultswide_columns_counterexample :
    cells_cursors_liquids_results_dataframes exTrial = some exDfs ∧
    rwSheetColumns exDfs.resWide =
      ["EXPID".data, "CELLID".data, "RESTYPE".data, "LEAKMTH".data,
       "ELTIME".data, "ELTIMEU".data, "TRACENUM".data, "ANLFL".data,
       "LIQUID".data, "CONC".data, "CONCU".data, "CONCT".data,
       "Peak".data, "CTLFL".data, "SBFL".data] ∧
    "SRCXFN".data ∉ rwSheetColumns exDfs.resWide := by
  refine ⟨by decide, by decide, by decide⟩

/-- C7 (amended): the written `ResultsWide` sheet carries the twelve
fixed init columns without `SRCXFN` (dropped at line 309), then the
cursor columns, then the back-filled `CTLFL` and `SBFL`; its rows are
sorted ascending by (EXPID, CELLID, ELTIME, TRACENUM) and duplicate
rows are collapsed. -/
theorem resultswide_sheet_shape :
    (∀ (trial : Trial) (dfs : Dataframes) (cns : List Str),
      cells_cursors_liquids_results_dataframes trial = some dfs →
      (∀ r ∈ dfs.resWide, r.cursorValues.map (fun cv => cv.1) = cns ∧
        r.CTLFL.isSome ∧ r.SBFL.isSome) →
      cns.Nodup → (∀ cn ∈ cns, cn ∉ rwFixedCols) →
      rwSheetColumns dfs.resWide =
        ["EXPID".data, "CELLID".data, "RESTYPE".data, "LEAKMTH".data,
         "ELTIME".data, "ELTIMEU".data, "TRACENUM".data, "ANLFL".data,
         "LIQUID".data, "CONC".data, "CONCU".data, "CONCT".data] ++
        cns ++ ["CTLFL".data, "SBFL".data]) ∧
    (∀ (trial : Trial) (dfs : Dataframes),
      cells_cursors_liquids_results_dataframes trial = some dfs →
      dfs.resWide.Pairwise (fun a b => rwKeyLe a b = true) ∧
      dfs.resWide.Nodup) := by
  constructor
  · intro trial dfs cns h hrows hnodup hdisj
    obtain ⟨rows, hrne, hshape⟩ := dataframes_resWide_shape trial dfs h
    have hne : dfs.resWide ≠ [] := by
      rw [hshape]
      intro hnil
      have hlen := (sortBy_perm rwKeyLe (dedupF rows)).length_eq
      rw [hnil] at hlen
      cases hrow : rows with
      | nil => exact hrne hrow
      | cons x xs =>
        rw [hrow] at hlen
        exact dedupF_ne_nil
          (List.length_eq_zero.mp (by simpa using hlen.symm))
    have hks : ∀ r ∈ dfs.resWide, rwRowKeysPreDrop r =
        rwBase13 ++ cns ++ ["CTLFL".data] ++ ["SBFL".data] := by
      intro r hr
      obtain ⟨hcur, hc1, hc2⟩ := hrows r hr
      obtain ⟨v1, hv1⟩ := Option.isSome_iff_exists.mp hc1
      obtain ⟨v2, hv2⟩ := Option.isSome_iff_exists.mp hc2
      unfold rwRowKeysPreDrop
      rw [hcur, hv1, hv2]
      rfl
    have hdedup : dedupF (dfs.resWide.flatMap rwRowKeysPreDrop) =
        dedupF (rwBase13 ++ cns ++ ["CTLFL".data] ++ ["SBFL".data]) :=
      dedupF_flatMap_const _ _ dfs.resWide hne hks
    have hksnodup : (rwBase13 ++ cns ++ ["CTLFL".data] ++
        ["SBFL".data]).Nodup := by
      rw [List.append_assoc, List.append_assoc]
      apply List.Nodup.append
      · decide
      · apply List.Nodup.append hnodup (by decide)
        intro a ha hb
        have haf : a ∈ rwFixedCols := by
          rcases List.mem_append.mp hb with h2 | h2
          · rw [List.mem_singleton.mp h2]
            decide
          · rw [List.mem_singleton.mp h2]
            decide
        exact hdisj a ha haf
      · intro a ha hb
        have haf : a ∈ rwFixedCols := rwBase13_subset a ha
        rcases List.mem_append.mp hb with h2 | h2
        · exact hdisj a h2 haf
        · rcases List.mem_append.mp h2 with h3 | h3
          · rw [List.mem_singleton.mp h3] at ha
            exact absurd ha (by decide)
          · rw [List.mem_singleton.mp h3] at ha
            exact absurd ha (by decide)
    unfold rwSheetColumns
    rw [hdedup, dedupF_eq_self _ hksnodup]
    rw [List.filter_append, List.filter_append, List.filter_append]
    have hc : cns.filter (fun c => c ≠ "SRCXFN".data) = cns := by
      rw [List.filter_eq_self]
      intro a ha
      have hsx : a ≠ "SRCXFN".data := by
        intro he
        exact hdisj a ha (he ▸ (by decide : "SRCXFN".data ∈ rwFixedCols))
      simpa using hsx
    rw [hc]
    rw [show rwBase13.filter (fun c => c ≠ "SRCXFN".data) =
      ["EXPID".data, "CELLID".data, "RESTYPE".data, "LEAKMTH".data,
       "ELTIME".data, "ELTIMEU".data, "TRACENUM".data, "ANLFL".data,
       "LIQUID".data, "CONC".data, "CONCU".data, "CONCT".data]
      from by decide]
    rw [show (["CTLFL".data] : List Str).filter
      (fun c => c ≠ "SRCXFN".data) = ["CTLFL".data] from by decide]
    rw [show (["SBFL".data] : List Str).filter
      (fun c => c ≠ "SRCXFN".data) = ["SBFL".data] from by decide]
    simp [List.append_assoc]
  · intro trial dfs h
    obtain ⟨rows, hrne, hshape⟩ := dataframes_resWide_shape trial dfs h
    constructor
    · rw [hshape]
      exact sortBy_sorted rwKeyLe rwKeyLe_total
        (fun hab hbc => rwKeyLe_trans hab hbc) _
    · rw [hshape]
      exact ((sortBy_perm rwKeyLe (dedupF rows)).nodup_iff).mpr
        (dedupF_nodup rows)

/-- Witness for the amended C7 theorem on the example trial (sole cursor
name `Peak`). -/
theorem resultswide_sheet_shape_witness :
    rwSheetColumns exDfs.resWide =
      ["EXPID".data, "CELLID".data, "RESTYPE".data, "LEAKMTH".data,
       "ELTIME".data, "ELTIMEU".data, "TRACENUM".data, "ANLFL".data,
       "LIQUID".data, "CONC".data, "CONCU".data, "CONCT".data] ++
      ["Peak".data] ++ ["CTLFL".data, "SBFL".data] ∧
    exDfs.resWide.Pairwise (fun a b => rwKeyLe a b = true) ∧
    exDfs.resWide.Nodup := by
  have h : cells_cursors_liquids_results_dataframes exTrial =
      some exDfs := by decide
  exact ⟨resultswide_sheet_shape.1 exTrial exDfs ["Peak".data] h
      (by decide) (by decide) (by decide),
    (resultswide_sheet_shape.2 exTrial exDfs h).1,
    (resultswide_sheet_shape.2 exTrial exDfs h).2⟩

end Cipa
